import Mathlib

/-!
# Verification of the autoMLSA change-detection and cache-invalidation engine

Shallow embedding of the Python sources `autoMLSA.py`,
`util/helper_functions.py` and `util/blast_parser.py` of the
osuchanglab/autoMLSA repository.

Modelling conventions:
* The filesystem under the run directory is a finite map from paths to file
  contents.  A path is its list of components relative to the run directory
  (the scripts `os.chdir` into the run directory and use relative paths).
  Directories are implicit: `shutil.rmtree(d)` removes every file whose first
  component is `d`.
* The JSON state files maintained through `json_writer` (`labels.json`,
  `rename.json`, `expected_fastas.json`, `expected_queries.json`,
  `expected_filt.json`) are modelled as typed fields of `RunState`; an absent
  file is `none`, matching the `os.path.exists` guards around each read.
* `blake2b(...).hexdigest()` (`generate_hash`) is an opaque content
  fingerprint; functions that hash are parametrised by `hashFn`.  Likewise the
  pandas result-table operations of `blast_parser.py` are parametrised by the
  functions `prep` (parse + filter raw BLAST text into the cached result
  table) and `summarize` (result table to kept-genome names and genome count).
* External subprocesses (`makeblastdb`, BLAST, mafft, iqtree) are opaque; the
  BLAST worker pool is modelled by the oracle `extOut` giving the bytes each
  search leaves in its `-out` file.  Jobs write to their own output paths.
* The staged sources are version-skewed: `main` calls
  `bp.print_blast_summary(args.logger, blastres, labels, args.allow_missing,
  args.missing_check)` (autoMLSA.py:1020-1023) with five positional arguments
  against a definition with seven required parameters and no defaults
  (util/blast_parser.py:58-59), so every run that completes
  `read_blast_results` dies with an uncaught `TypeError` at that call (and
  the function would in any case return a single frame, blast_parser.py:178,
  not the pair `main` unpacks; `bp.print_fasta_files` is likewise called with
  four arguments against a three-parameter definition).  `runOnce` embeds the
  composition as written, ending in that crash; `runOnceIntended` is a second
  definition following the spec's words — the same stages with the filter
  call made as declared — kept for comparison.
-/

namespace AutoMLSA

/-- A path relative to the run directory, as its list of components. -/
abbrev Path := List String

/-- The filesystem: an association list from paths to file contents. -/
abbrev FileMap := List (Path × String)

/-- Content of the file at `p`, or `none` when it does not exist. -/
def lookupFile (fs : FileMap) (p : Path) : Option String :=
  match fs with
  | [] => none
  | e :: rest => if e.1 = p then some e.2 else lookupFile rest p

/-- `os.path.exists`. -/
def pathExists (fs : FileMap) (p : Path) : Bool :=
  (lookupFile fs p).isSome

/-- `os.path.getsize` (0 for a missing file; callers guard with `exists`). -/
def getsize (fs : FileMap) (p : Path) : Nat :=
  ((lookupFile fs p).getD "").length

/-- `open(p, 'w')` followed by writing `c`: create or overwrite. -/
def writeFile (fs : FileMap) (p : Path) (c : String) : FileMap :=
  (p, c) :: fs.filter (fun e => decide (e.1 ≠ p))

@[simp] theorem lookupFile_nil (p : Path) : lookupFile [] p = none := rfl

theorem lookupFile_writeFile_self (fs : FileMap) (p : Path) (c : String) :
    lookupFile (writeFile fs p c) p = some c := by
  simp [writeFile, lookupFile]

theorem lookupFile_filter_eq (fs : FileMap) (q : Path × String → Bool)
    (p : Path) (h : ∀ e ∈ fs, e.1 = p → q e = true) :
    lookupFile (fs.filter q) p = lookupFile fs p := by
  induction fs with
  | nil => simp
  | cons e rest ih =>
    by_cases hep : e.1 = p
    · rw [List.filter_cons, h e (by simp) hep]
      simp [lookupFile, hep, ih]
    · rw [List.filter_cons]
      cases hq : q e with
      | true =>
        simp only [lookupFile, hep, if_false]
        exact ih (fun e hm hp => h e (by simp [hm]) hp)
      | false =>
        simp only [lookupFile, hep, if_false]
        exact ih (fun e hm hp => h e (by simp [hm]) hp)

theorem pathExists_of_lookup {fs : FileMap} {p : Path} {c : String}
    (h : lookupFile fs p = some c) : pathExists fs p = true := by
  rw [pathExists, h]
  rfl

theorem lookupFile_writeFile_ne (fs : FileMap) (p q : Path) (c : String)
    (h : q ≠ p) : lookupFile (writeFile fs p c) q = lookupFile fs q := by
  have hpq : p ≠ q := fun hc => h hc.symm
  simp only [writeFile, lookupFile, if_neg hpq]
  exact lookupFile_filter_eq fs _ q (fun e _ hp => by simp only [hp, decide_eq_true_eq]; exact h)

/-- Python dictionaries keyed by strings: lookup in an association list. -/
def assocLookup {β : Type} (d : List (String × β)) (k : String) : Option β :=
  match d with
  | [] => none
  | e :: rest => if e.1 = k then some e.2 else assocLookup rest k

/-- `d[k] = v` on a Python dict: replace in place, or append a new key. -/
def assocSet {β : Type} (d : List (String × β)) (k : String) (v : β) :
    List (String × β) :=
  match d with
  | [] => [(k, v)]
  | e :: rest => if e.1 = k then (k, v) :: rest else e :: assocSet rest k v

/-- Python `set(a) == set(b)`: mutual containment (order irrelevant,
duplicates collapsed). -/
def pySetEq {α : Type} [DecidableEq α] (a b : List α) : Bool :=
  a.all (fun x => decide (x ∈ b)) && b.all (fun x => decide (x ∈ a))

/-- Python `set(a) != set(b)`. -/
def pySetNe {α : Type} [DecidableEq α] (a b : List α) : Bool :=
  !pySetEq a b

theorem pySetEq_iff_toFinset {α : Type} [DecidableEq α] (a b : List α) :
    pySetEq a b = true ↔ a.toFinset = b.toFinset := by
  simp only [pySetEq, Bool.and_eq_true, List.all_eq_true, decide_eq_true_eq]
  constructor
  · rintro ⟨hab, hba⟩
    apply Finset.ext
    intro x
    simp only [List.mem_toFinset]
    exact ⟨fun h => hab x h, fun h => hba x h⟩
  · intro h
    constructor
    · intro x hx
      have : x ∈ a.toFinset := List.mem_toFinset.mpr hx
      rw [h] at this
      exact List.mem_toFinset.mp this
    · intro x hx
      have : x ∈ b.toFinset := List.mem_toFinset.mpr hx
      rw [← h] at this
      exact List.mem_toFinset.mp this

theorem pySetNe_eq_decide {α : Type} [DecidableEq α] (a b : List α) :
    pySetNe a b = decide (a.toFinset ≠ b.toFinset) := by
  rcases h : pySetEq a b with _ | _
  · have : ¬ a.toFinset = b.toFinset := fun hc =>
      by rw [(pySetEq_iff_toFinset a b).mpr hc] at h; exact Bool.noConfusion h
    simp [pySetNe, h, this]
  · have := (pySetEq_iff_toFinset a b).mp h
    simp [pySetNe, h, this]

theorem pySetNe_self {α : Type} [DecidableEq α] (a : List α) :
    pySetNe a a = false := by
  rw [pySetNe_eq_decide]
  simp

/-- `sanitize_path` (autoMLSA.py:218-224): spaces to underscores, then only
alphanumerics and `._-` are kept.  Python's `str.isalnum` is modelled by
`Char.isAlphanum` (the identifiers handled here are ASCII). -/
def sanitize_path (s : String) : String :=
  let t := String.mk (s.data.map (fun c => if c = ' ' then '_' else c))
  String.mk (t.data.filter
    (fun c => c.isAlphanum || c = '.' || c = '_' || c = '-'))

/-- First half of `os.path.splitext` applied to a file name: drop the part
from the last dot on, unless the name consists of leading dots only. -/
def splitextFst (s : String) : String :=
  match s.data.reverse.findIdx? (fun c => decide (c = '.')) with
  | none => s
  | some k =>
    let i := s.data.length - 1 - k
    if (s.data.take i).all (fun c => decide (c = '.')) then s
    else String.mk (s.data.take i)

/-- One record of a FASTA file: header id and residue sequence. -/
structure FastaRecord where
  id : String
  seq : String
deriving DecidableEq, Repr

/-- A genome input file: its base name (`os.path.basename`) and parsed
records.  (The duplicate-base-name check of `validate_arguments` has already
run, and genome files are read from their original location each run.) -/
structure GenomeFile where
  base : String
  records : List FastaRecord
deriving DecidableEq, Repr

/-- A query input file: its path (also used as display/base name; the claims
exercised here never place two distinct files at one path) and records. -/
structure QueryFile where
  path : String
  records : List FastaRecord
deriving DecidableEq, Repr

/-- One value of `rename.json`: `{'index': label, 'recid': first record id}`.
`recid` is only present once the renamed copy has been written. -/
structure RenameEntry where
  index : Nat
  recid : Option String
deriving DecidableEq, Repr

/-- All state persisted under the run directory.  The JSON stores kept in
`.autoMLSA` are typed fields (`none` = file absent); every other file lives
in `files`. -/
structure RunState where
  files : FileMap
  labelsStore : Option (List String)
  renameStore : Option (List (String × RenameEntry))
  expectedFastas : Option (List Path)
  expectedQueries : Option (List Path)
  expectedFilt : Option (List String)
deriving DecidableEq, Repr

/-- The state of a freshly created run directory. -/
def freshState : RunState :=
  { files := [], labelsStore := none, renameStore := none,
    expectedFastas := none, expectedQueries := none, expectedFilt := none }

/-! ## Identity registry: `get_labels` (autoMLSA.py:578-601) -/

/-- The loop of `get_labels`: `for base in bases: if base not in labels:
labels.append(base)`. -/
def addBases (labels : List String) : List String → List String
  | [] => labels
  | b :: bs => if b ∈ labels then addBases labels bs
               else addBases (labels ++ [b]) bs

/-- `get_labels`: read `labels.json` if present (else start from the current
base names) and append the unseen base names; the caller persists the
result. -/
def get_labels (stored : Option (List String)) (bases : List String) :
    List String :=
  match stored with
  | some labels => addBases labels bases
  | none => bases

theorem addBases_spec (bs labels : List String) :
    ∃ new, addBases labels bs = labels ++ new ∧
      new.Sublist bs ∧ new.Nodup ∧
      (∀ b ∈ new, b ∉ labels) ∧
      (∀ b ∈ bs, b ∉ labels → b ∈ new) := by
  induction bs generalizing labels with
  | nil => exact ⟨[], by simp [addBases]⟩
  | cons b bs ih =>
    by_cases hb : b ∈ labels
    · obtain ⟨new, h1, h2, h3, h4, h5⟩ := ih labels
      refine ⟨new, ?_, h2.cons _, h3, h4, ?_⟩
      · simpa [addBases, hb] using h1
      · intro x hx hxl
        rcases List.mem_cons.mp hx with rfl | hx
        · exact absurd hb hxl
        · exact h5 x hx hxl
    · obtain ⟨new, h1, h2, h3, h4, h5⟩ := ih (labels ++ [b])
      refine ⟨b :: new, ?_, h2.cons₂ _, ?_, ?_, ?_⟩
      · rw [addBases, if_neg hb, h1, List.append_assoc]
        rfl
      · refine List.nodup_cons.mpr ⟨fun hc => ?_, h3⟩
        have := h4 b hc
        simp at this
      · intro x hx
        rcases List.mem_cons.mp hx with rfl | hx
        · exact hb
        · intro hxl
          exact h4 x hx (by simp [hxl])
      · intro x hx hxl
        rcases List.mem_cons.mp hx with rfl | hx
        · exact List.mem_cons_self _ _
        · by_cases hxb : x = b
          · exact hxb ▸ List.mem_cons_self _ _
          · exact List.mem_cons_of_mem _
              (h5 x hx (by simp [hxl, hxb]))

theorem addBases_mem (bs labels : List String) (b : String) (h : b ∈ bs) :
    b ∈ addBases labels bs := by
  obtain ⟨new, h1, _, _, _, h5⟩ := addBases_spec bs labels
  rw [h1]
  by_cases hb : b ∈ labels
  · exact List.mem_append_left _ hb
  · exact List.mem_append_right _ (h5 b h hb)

theorem addBases_absorb (bs labels : List String)
    (h : ∀ b ∈ bs, b ∈ labels) : addBases labels bs = labels := by
  induction bs with
  | nil => rfl
  | cons b bs ih =>
    rw [addBases, if_pos (h b (by simp))]
    exact ih (fun x hx => h x (by simp [hx]))

/-- C5: `get_labels` only appends base names that are not already present, in
their order of first appearance, at the end of the persisted list; every
position already assigned is unchanged and nothing is removed, so a base name
keeps its integer label (its index, as used by `convert_fasta` via
`labels.index(base)`) across runs. -/
theorem get_labels_append_only (labels bases : List String) :
    ∃ new, get_labels (some labels) bases = labels ++ new ∧
      new.Sublist bases ∧ new.Nodup ∧
      (∀ b ∈ new, b ∉ labels) ∧
      (∀ b ∈ bases, b ∉ labels → b ∈ new) ∧
      (∀ b ∈ bases, b ∈ get_labels (some labels) bases) ∧
      (∀ b ∈ labels,
        (get_labels (some labels) bases).indexOf b = labels.indexOf b) := by
  obtain ⟨new, h1, h2, h3, h4, h5⟩ := addBases_spec bases labels
  refine ⟨new, h1, h2, h3, h4, h5, ?_, ?_⟩
  · intro b hb
    exact addBases_mem bases labels b hb
  · intro b hb
    show (addBases labels bases).indexOf b = labels.indexOf b
    rw [h1]
    exact List.indexOf_append_of_mem hb

theorem get_labels_append_only_witness :
    ∃ new, get_labels (some ["a.fa", "b.fa"]) ["b.fa", "c.fa"] =
        ["a.fa", "b.fa"] ++ new ∧
      new.Sublist ["b.fa", "c.fa"] ∧ new.Nodup ∧
      (∀ b ∈ new, b ∉ ["a.fa", "b.fa"]) ∧
      (∀ b ∈ ["b.fa", "c.fa"], b ∉ ["a.fa", "b.fa"] → b ∈ new) ∧
      (∀ b ∈ ["b.fa", "c.fa"],
        b ∈ get_labels (some ["a.fa", "b.fa"]) ["b.fa", "c.fa"]) ∧
      (∀ b ∈ ["a.fa", "b.fa"],
        (get_labels (some ["a.fa", "b.fa"]) ["b.fa", "c.fa"]).indexOf b =
          (["a.fa", "b.fa"] : List String).indexOf b) :=
  get_labels_append_only ["a.fa", "b.fa"] ["b.fa", "c.fa"]

/-! ## Checkpoint controller: `checkpoint_tracker`
(util/helper_functions.py:111-114) -/

/-- `checkpoint_tracker(fn_name)`: create the zero-byte sentinel
`.autoMLSA/checkpoint/<fn_name>` unless it already exists. -/
def checkpoint_tracker (fn_name : String) (files : FileMap) : FileMap :=
  let checkpath : Path := [".autoMLSA", "checkpoint", fn_name]
  if pathExists files checkpath then files
  else writeFile files checkpath ""

/-- C9: marking a stage checkpoint is idempotent: after the call the marker
exists; if the marker already existed the call is a no-op; and calling twice
leaves the store exactly as calling once. -/
theorem checkpoint_tracker_idempotent (fn_name : String) (files : FileMap) :
    pathExists (checkpoint_tracker fn_name files)
        [".autoMLSA", "checkpoint", fn_name] = true ∧
      checkpoint_tracker fn_name (checkpoint_tracker fn_name files) =
        checkpoint_tracker fn_name files ∧
      (pathExists files [".autoMLSA", "checkpoint", fn_name] = true →
        checkpoint_tracker fn_name files = files) := by
  have hex : pathExists (checkpoint_tracker fn_name files)
      [".autoMLSA", "checkpoint", fn_name] = true := by
    unfold checkpoint_tracker
    rcases h : pathExists files [".autoMLSA", "checkpoint", fn_name] with _ | _
    · rw [if_neg (by simp [h])]
      simp [pathExists, lookupFile_writeFile_self]
    · rw [if_pos (by simp [h])]
      exact h
  refine ⟨hex, ?_, ?_⟩
  · rw [checkpoint_tracker]
    simp only [hex, if_true]
  · intro h
    unfold checkpoint_tracker
    simp only [h, if_true]

theorem checkpoint_tracker_idempotent_witness :
    pathExists (checkpoint_tracker "read_blast_results" [])
        [".autoMLSA", "checkpoint", "read_blast_results"] = true ∧
      checkpoint_tracker "read_blast_results"
          (checkpoint_tracker "read_blast_results" []) =
        checkpoint_tracker "read_blast_results" [] ∧
      (pathExists [] [".autoMLSA", "checkpoint", "read_blast_results"] = true →
        checkpoint_tracker "read_blast_results" [] = []) :=
  checkpoint_tracker_idempotent "read_blast_results" []

/-! ## Genome normalization: `convert_fasta` (autoMLSA.py:604-659) -/

/-- Content of the renamed FASTA copy: each record is written as
`>{label} {rec.id}` followed by its sequence. -/
def renderGenome (label : Nat) (records : List FastaRecord) : String :=
  records.foldl (fun acc r =>
    acc ++ ">" ++ toString label ++ " " ++ r.id ++ "\n" ++ r.seq ++ "\n") ""

/-- While writing the renamed copy, `rename_info[base]['recid']` is set to
the first record's id unless already present. -/
def writeRecid (ri : List (String × RenameEntry)) (g : GenomeFile) :
    List (String × RenameEntry) :=
  match assocLookup ri g.base with
  | some e => assocSet ri g.base
      ⟨e.index, e.recid.orElse (fun _ => (g.records.head?).map (fun r => r.id))⟩
  | none => ri

/-- One iteration of the `for fasta in fastas` loop of `convert_fasta`: the
label is the base name's index in `labels`; a missing `rename.json` entry is
created with that index; the renamed copy `fasta/<base>` is written only when
it does not already exist.  (`make_blast_database` only runs the external
`makeblastdb`; the BLAST database files are not modelled.) -/
def convert_fasta_step (labels : List String)
    (acc : List Path × List (String × RenameEntry) × FileMap)
    (g : GenomeFile) : List Path × List (String × RenameEntry) × FileMap :=
  let label := labels.indexOf g.base
  let labelfastaf : Path := ["fasta", g.base]
  let ri :=
    match assocLookup acc.2.1 g.base with
    | some _ => acc.2.1
    | none => assocSet acc.2.1 g.base ⟨label, none⟩
  if pathExists acc.2.2 labelfastaf then
    (acc.1 ++ [labelfastaf], ri, acc.2.2)
  else
    (acc.1 ++ [labelfastaf], writeRecid ri g,
      writeFile acc.2.2 labelfastaf (renderGenome label g.records))

/-- `convert_fasta`: normalize every genome, then compare the produced path
list against `expected_fastas.json` (as sets) and persist the new list
unconditionally. -/
def convert_fasta (fastas : List GenomeFile) (labels : List String)
    (s : RunState) : List Path × Bool × RunState :=
  let res := fastas.foldl (convert_fasta_step labels)
    ([], s.renameStore.getD [], s.files)
  let new_fastas := res.1
  let expected := s.expectedFastas.getD []
  let updated := pySetNe expected new_fastas
  (new_fastas, updated,
    { s with files := res.2.2, renameStore := some res.2.1,
             expectedFastas := some new_fastas })

theorem convert_fold_fst (labels : List String) (fastas : List GenomeFile)
    (acc : List Path × List (String × RenameEntry) × FileMap) :
    (fastas.foldl (convert_fasta_step labels) acc).1 =
      acc.1 ++ fastas.map (fun g => ["fasta", g.base]) := by
  induction fastas generalizing acc with
  | nil => simp
  | cons g gs ih =>
    rw [List.foldl_cons, ih]
    have hstep : (convert_fasta_step labels acc g).1 =
        acc.1 ++ [["fasta", g.base]] := by
      unfold convert_fasta_step
      rcases h : pathExists acc.2.2 ["fasta", g.base] with _ | _
      · rw [if_neg (by simp [h])]
      · rw [if_pos (by simp [h])]
    rw [hstep, List.map_cons, List.append_assoc]
    rfl

theorem convert_step_files (labels : List String) (g : GenomeFile)
    (acc : List Path × List (String × RenameEntry) × FileMap) :
    (convert_fasta_step labels acc g).2.2 = acc.2.2 ∨
      (pathExists acc.2.2 ["fasta", g.base] = false ∧
        (convert_fasta_step labels acc g).2.2 =
          writeFile acc.2.2 ["fasta", g.base]
            (renderGenome (labels.indexOf g.base) g.records)) := by
  unfold convert_fasta_step
  rcases h : pathExists acc.2.2 ["fasta", g.base] with _ | _
  · right
    rw [if_neg (by simp [h])]
    exact ⟨rfl, rfl⟩
  · left
    rw [if_pos (by simp [h])]

theorem convert_fold_preserve (labels : List String)
    (fastas : List GenomeFile)
    (acc : List Path × List (String × RenameEntry) × FileMap)
    (p : Path) (c : String) (h : lookupFile acc.2.2 p = some c) :
    lookupFile (fastas.foldl (convert_fasta_step labels) acc).2.2 p =
      some c := by
  induction fastas generalizing acc with
  | nil => exact h
  | cons g gs ih =>
    rw [List.foldl_cons]
    apply ih
    rcases convert_step_files labels g acc with hs | ⟨habs, hs⟩
    · rw [hs]; exact h
    · rw [hs]
      have hne : p ≠ ["fasta", g.base] := by
        intro hc
        rw [hc] at h
        rw [pathExists_of_lookup h] at habs
        exact Bool.noConfusion habs
      rw [lookupFile_writeFile_ne _ _ _ _ hne]
      exact h

theorem convert_fold_frame (labels : List String) (fastas : List GenomeFile)
    (acc : List Path × List (String × RenameEntry) × FileMap)
    (p : Path) (h : ∀ b, p ≠ ["fasta", b]) :
    lookupFile (fastas.foldl (convert_fasta_step labels) acc).2.2 p =
      lookupFile acc.2.2 p := by
  induction fastas generalizing acc with
  | nil => rfl
  | cons g gs ih =>
    rw [List.foldl_cons, ih]
    rcases convert_step_files labels g acc with hs | ⟨_, hs⟩
    · rw [hs]
    · rw [hs, lookupFile_writeFile_ne _ _ _ _ (h g.base)]

theorem convert_fold_exists_preserve (labels : List String)
    (fastas : List GenomeFile)
    (acc : List Path × List (String × RenameEntry) × FileMap)
    (p : Path) (h : pathExists acc.2.2 p = true) :
    pathExists (fastas.foldl (convert_fasta_step labels) acc).2.2 p = true := by
  rcases hl : lookupFile acc.2.2 p with _ | c
  · rw [pathExists, hl] at h
    exact Bool.noConfusion h
  · exact pathExists_of_lookup (convert_fold_preserve labels fastas acc p c hl)

theorem convert_step_exists (labels : List String) (g : GenomeFile)
    (acc : List Path × List (String × RenameEntry) × FileMap) :
    pathExists (convert_fasta_step labels acc g).2.2
      ["fasta", g.base] = true := by
  unfold convert_fasta_step
  rcases h : pathExists acc.2.2 ["fasta", g.base] with _ | _
  · rw [if_neg (by simp [h])]
    exact pathExists_of_lookup (lookupFile_writeFile_self _ _ _)
  · rw [if_pos (by simp [h])]
    exact h

theorem convert_fold_exists (labels : List String) (fastas : List GenomeFile)
    (acc : List Path × List (String × RenameEntry) × FileMap)
    (g : GenomeFile) (hg : g ∈ fastas) :
    pathExists (fastas.foldl (convert_fasta_step labels) acc).2.2
      ["fasta", g.base] = true := by
  induction fastas generalizing acc with
  | nil => exact absurd hg (List.not_mem_nil g)
  | cons g0 gs ih =>
    rw [List.foldl_cons]
    rcases List.mem_cons.mp hg with rfl | hg'
    · exact convert_fold_exists_preserve labels gs _ _
        (convert_step_exists labels g acc)
    · exact ih _ hg'

theorem convert_fasta_new_fastas (fastas : List GenomeFile)
    (labels : List String) (s : RunState) :
    (convert_fasta fastas labels s).1 =
      fastas.map (fun g => ["fasta", g.base]) := by
  unfold convert_fasta
  rw [convert_fold_fst]
  rfl

theorem convert_fasta_state (fastas : List GenomeFile) (labels : List String)
    (s : RunState) :
    (convert_fasta fastas labels s).2.2.expectedFastas =
        some (convert_fasta fastas labels s).1 ∧
      (convert_fasta fastas labels s).2.1 =
        pySetNe (s.expectedFastas.getD []) (convert_fasta fastas labels s).1 ∧
      (convert_fasta fastas labels s).2.2.labelsStore = s.labelsStore ∧
      (convert_fasta fastas labels s).2.2.expectedQueries =
        s.expectedQueries ∧
      (convert_fasta fastas labels s).2.2.expectedFilt = s.expectedFilt :=
  ⟨rfl, rfl, rfl, rfl, rfl⟩

theorem convert_fasta_preserve (fastas : List GenomeFile)
    (labels : List String) (s : RunState) (p : Path) (c : String)
    (h : lookupFile s.files p = some c) :
    lookupFile (convert_fasta fastas labels s).2.2.files p = some c :=
  convert_fold_preserve labels fastas _ p c h

theorem convert_fasta_frame (fastas : List GenomeFile)
    (labels : List String) (s : RunState) (p : Path)
    (h : ∀ b, p ≠ ["fasta", b]) :
    lookupFile (convert_fasta fastas labels s).2.2.files p =
      lookupFile s.files p :=
  convert_fold_frame labels fastas _ p h

theorem convert_fasta_exists (fastas : List GenomeFile)
    (labels : List String) (s : RunState) (g : GenomeFile)
    (hg : g ∈ fastas) :
    pathExists (convert_fasta fastas labels s).2.2.files
      ["fasta", g.base] = true :=
  convert_fold_exists labels fastas _ g hg

/-- C1 counterexample: a genome whose sequence content changed while its base
name stayed the same.  The prior run normalized `g.fa` (sequence `AAAA`,
label 0) and produced a search result for it; the new run sees `g.fa` with
sequence `CCCC`.  `convert_fasta` neither deletes nor rewrites the stale
normalized copy, and the search-result artifact also survives: no digest is
recomputed or compared (the rename store holds only a label index and the
first record id — `generate_hash` is never called on genomes). -/
theorem convert_fasta_drift_counterexample :
    lookupFile (convert_fasta [⟨"g.fa", [⟨"chr1", "CCCC"⟩]⟩] ["g.fa"]
        { files := [(["fasta", "g.fa"], renderGenome 0 [⟨"chr1", "AAAA"⟩]),
                    (["blast", "q_vs_g.fa.tab"], "oldhits")],
          labelsStore := some ["g.fa"],
          renameStore := some [("g.fa", ⟨0, some "chr1"⟩)],
          expectedFastas := some [["fasta", "g.fa"]],
          expectedQueries := none,
          expectedFilt := none }).2.2.files ["fasta", "g.fa"] =
      some (renderGenome 0 [⟨"chr1", "AAAA"⟩]) ∧
    lookupFile (convert_fasta [⟨"g.fa", [⟨"chr1", "CCCC"⟩]⟩] ["g.fa"]
        { files := [(["fasta", "g.fa"], renderGenome 0 [⟨"chr1", "AAAA"⟩]),
                    (["blast", "q_vs_g.fa.tab"], "oldhits")],
          labelsStore := some ["g.fa"],
          renameStore := some [("g.fa", ⟨0, some "chr1"⟩)],
          expectedFastas := some [["fasta", "g.fa"]],
          expectedQueries := none,
          expectedFilt := none }).2.2.files ["blast", "q_vs_g.fa.tab"] =
      some "oldhits" ∧
    renderGenome 0 [⟨"chr1", "AAAA"⟩] ≠ renderGenome 0 [⟨"chr1", "CCCC"⟩] := by
  refine ⟨?_, ?_, ?_⟩ <;> decide

/-- C1 amended: `rename.json` stores only the assigned label index and the
first record id — no content digest — and no digest comparison happens on a
later run: `convert_fasta` never deletes or overwrites any existing file (a
renamed copy is written only when absent), so content drift under an
unchanged base name goes undetected and removes nothing. -/
theorem convert_fasta_no_drift_detection (fastas : List GenomeFile)
    (labels : List String) (s : RunState) :
    (∀ p c, lookupFile s.files p = some c →
      lookupFile (convert_fasta fastas labels s).2.2.files p = some c) ∧
    (∀ g ∈ fastas,
      pathExists (convert_fasta fastas labels s).2.2.files
        ["fasta", g.base] = true) := by
  constructor
  · intro p c h
    exact convert_fold_preserve labels fastas _ p c h
  · intro g hg
    exact convert_fold_exists labels fastas _ g hg

theorem convert_fasta_no_drift_detection_witness :
    (∀ p c, lookupFile ([(["fasta", "g.fa"], "x")] : FileMap) p = some c →
      lookupFile (convert_fasta [⟨"g.fa", []⟩] ["g.fa"]
        { freshState with files := [(["fasta", "g.fa"], "x")] }).2.2.files p =
        some c) ∧
    (∀ g ∈ [(⟨"g.fa", []⟩ : GenomeFile)],
      pathExists (convert_fasta [⟨"g.fa", []⟩] ["g.fa"]
        { freshState with files := [(["fasta", "g.fa"], "x")] }).2.2.files
        ["fasta", g.base] = true) :=
  convert_fasta_no_drift_detection [⟨"g.fa", []⟩] ["g.fa"]
    { freshState with files := [(["fasta", "g.fa"], "x")] }

/-! ## Search-list generation: `generate_blast_list` (autoMLSA.py:805-858) -/

/-- One BLAST job.  The full command line is
`[exe, '-evalue', e, '-outfmt', fmt, '-db', db, '-query', query, '-out',
out]`; `exe`, the e-value and the format string are fixed across the list and
not modelled. -/
structure BlastCmd where
  db : Path
  query : Path
  out : Path
deriving DecidableEq, Repr

/-- `blast/{splitext(basename(query))[0]}_vs_{basename(target)}.tab`. -/
def blastOutPath (query target : Path) : Path :=
  ["blast",
    splitextFst (query.getLastD "") ++ "_vs_" ++ target.getLastD "" ++ ".tab"]

/-- The nested `for target in targets: for query in queries` loop.  Every
output path is appended to `blastout`; a command is queued only when its
output file is absent or empty. -/
def generate_blast_list (queries targets : List Path) (files : FileMap) :
    List BlastCmd × List Path :=
  targets.foldl (fun acc target =>
    queries.foldl (fun acc query =>
      let outpath := blastOutPath query target
      let cmds :=
        if pathExists files outpath then
          if getsize files outpath = 0 then acc.1 ++ [⟨target, query, outpath⟩]
          else acc.1
        else acc.1 ++ [⟨target, query, outpath⟩]
      (cmds, acc.2 ++ [outpath])) acc) ([], [])

theorem gbl_inner_snd (queries : List Path) (target : Path) (files : FileMap)
    (acc : List BlastCmd × List Path) :
    (queries.foldl (fun acc query =>
      let outpath := blastOutPath query target
      let cmds :=
        if pathExists files outpath then
          if getsize files outpath = 0 then acc.1 ++ [⟨target, query, outpath⟩]
          else acc.1
        else acc.1 ++ [⟨target, query, outpath⟩]
      (cmds, acc.2 ++ [outpath])) acc).2 =
      acc.2 ++ queries.map (fun q => blastOutPath q target) := by
  induction queries generalizing acc with
  | nil => simp
  | cons q qs ih =>
    rw [List.foldl_cons, ih]
    simp [List.append_assoc]

theorem gbl_snd (queries targets : List Path) (files : FileMap)
    (acc : List BlastCmd × List Path) :
    (targets.foldl (fun acc target =>
      queries.foldl (fun acc query =>
        let outpath := blastOutPath query target
        let cmds :=
          if pathExists files outpath then
            if getsize files outpath = 0 then
              acc.1 ++ [⟨target, query, outpath⟩]
            else acc.1
          else acc.1 ++ [⟨target, query, outpath⟩]
        (cmds, acc.2 ++ [outpath])) acc) acc).2 =
      acc.2 ++ targets.flatMap
        (fun t => queries.map (fun q => blastOutPath q t)) := by
  induction targets generalizing acc with
  | nil => simp
  | cons t ts ih =>
    rw [List.foldl_cons, ih, gbl_inner_snd, List.flatMap_cons,
      List.append_assoc]

/-- C10: the returned output list is exactly one path per (target, query)
pair, in target-major, query-minor input order, with length
`|targets| * |queries|`, and it does not depend on the filesystem (which only
decides which commands are queued). -/
theorem generate_blast_list_outputs_complete (queries targets : List Path)
    (files files2 : FileMap) :
    (generate_blast_list queries targets files).2 =
        targets.flatMap (fun t => queries.map (fun q => blastOutPath q t)) ∧
      (generate_blast_list queries targets files).2.length =
        targets.length * queries.length ∧
      (generate_blast_list queries targets files).2 =
        (generate_blast_list queries targets files2).2 := by
  have h1 : ∀ fs : FileMap, (generate_blast_list queries targets fs).2 =
      targets.flatMap (fun t => queries.map (fun q => blastOutPath q t)) := by
    intro fs
    unfold generate_blast_list
    rw [gbl_snd]
    rfl
  have h2 : ∀ ts : List Path,
      (List.map (List.length ∘ fun t => List.map
        (fun q => blastOutPath q t) queries) ts).sum =
        ts.length * queries.length := by
    intro ts
    induction ts with
    | nil => simp
    | cons t ts ih => simp [ih, Nat.succ_mul, Nat.add_comm]
  refine ⟨h1 files, ?_, by rw [h1 files, h1 files2]⟩
  rw [h1 files, List.length_flatMap, h2]

/-! ## Invalidation engine: `remove_intermediates`
(util/helper_functions.py:18-31) -/

/-- Should this file be deleted by the `'genome'` branch?  `shutil.rmtree` on
`unaligned` and `aligned` removes those subtrees; the five
`.autoMLSA/<name>` cache files are removed individually (each guarded by
`os.path.exists`, so absent files are skipped silently). -/
def genomeDelete (p : Path) : Bool :=
  decide (p.head? = some "unaligned") || decide (p.head? = some "aligned") ||
    decide (p ∈ [([".autoMLSA", "blast_results.tsv"] : Path),
      [".autoMLSA", "keepsidx.json"], [".autoMLSA", "single_copy.json"],
      [".autoMLSA", "blast_filtered.tsv"], [".autoMLSA", "expected_filt.json"]])

/-- Should this file be deleted by the unconditional
`glob.iglob(runid + '.nex*')` loop?  The glob runs in the run directory, so
it only matches top-level names starting with `runid + ".nex"`. -/
def nexDelete (runid : String) (p : Path) : Bool :=
  match p with
  | [name] => name.startsWith (runid ++ ".nex")
  | _ => false

/-- `remove_intermediates(runid, intermediates)`: with the `'genome'` tag,
delete the unaligned/aligned trees and the five `.autoMLSA` cache files
(including the persisted `expected_filt.json` snapshot, modelled as the
typed field); in all cases delete `runid.nex*`.  Deletions are
exists-guarded, so nothing errors when a target is absent. -/
def remove_intermediates (runid : String) (intermediates : List String)
    (s : RunState) : RunState :=
  if "genome" ∈ intermediates then
    { s with
      files := (s.files.filter (fun e => !genomeDelete e.1)).filter
        (fun e => !nexDelete runid e.1),
      expectedFilt := none }
  else
    { s with files := s.files.filter (fun e => !nexDelete runid e.1) }

theorem lookupFile_filter_key (fs : FileMap) (qk : Path → Bool) (p : Path) :
    lookupFile (fs.filter (fun e => qk e.1)) p =
      (if qk p = true then lookupFile fs p else none) := by
  induction fs with
  | nil => simp [lookupFile]
  | cons e rest ih =>
    rw [List.filter_cons]
    by_cases hep : e.1 = p
    · subst hep
      rcases hq : qk e.1 with _ | _
      · simp [hq, ih, lookupFile]
      · simp [hq, lookupFile]
    · rcases hq : qk e.1 with _ | _
      · simp [hq, ih, lookupFile, hep]
      · simp [hq, ih, lookupFile, hep]

theorem remove_intermediates_files (runid : String) (tags : List String)
    (s : RunState) (p : Path) :
    lookupFile (remove_intermediates runid tags s).files p =
      (if nexDelete runid p = true then none
       else if "genome" ∈ tags then
         (if genomeDelete p = true then none else lookupFile s.files p)
       else lookupFile s.files p) := by
  unfold remove_intermediates
  by_cases htag : "genome" ∈ tags
  · rw [if_pos htag]
    show lookupFile ((s.files.filter (fun e => !genomeDelete e.1)).filter
      (fun e => !nexDelete runid e.1)) p = _
    rw [lookupFile_filter_key _ (fun q => !nexDelete runid q),
      lookupFile_filter_key _ (fun q => !genomeDelete q)]
    rcases hn : nexDelete runid p with _ | _ <;>
      rcases hg : genomeDelete p with _ | _ <;> simp [htag]
  · rw [if_neg htag]
    show lookupFile (s.files.filter (fun e => !nexDelete runid e.1)) p = _
    rw [lookupFile_filter_key _ (fun q => !nexDelete runid q)]
    rcases hn : nexDelete runid p with _ | _ <;> simp [htag]

theorem remove_intermediates_stores (runid : String) (tags : List String)
    (s : RunState) :
    (remove_intermediates runid tags s).labelsStore = s.labelsStore ∧
      (remove_intermediates runid tags s).renameStore = s.renameStore ∧
      (remove_intermediates runid tags s).expectedFastas =
        s.expectedFastas ∧
      (remove_intermediates runid tags s).expectedQueries =
        s.expectedQueries ∧
      (remove_intermediates runid tags s).expectedFilt =
        (if "genome" ∈ tags then none else s.expectedFilt) := by
  unfold remove_intermediates
  by_cases htag : "genome" ∈ tags <;> simp [htag]

theorem remove_intermediates_noop (runid : String) (tags : List String)
    (s : RunState)
    (hfiles : ∀ e ∈ s.files,
      genomeDelete e.1 = false ∧ nexDelete runid e.1 = false)
    (hfilt : s.expectedFilt = none) :
    remove_intermediates runid tags s = s := by
  have h1 : s.files.filter (fun e => !genomeDelete e.1) = s.files :=
    List.filter_eq_self.mpr (fun e he => by simp [(hfiles e he).1])
  have h2 : s.files.filter (fun e => !nexDelete runid e.1) = s.files :=
    List.filter_eq_self.mpr (fun e he => by simp [(hfiles e he).2])
  unfold remove_intermediates
  by_cases htag : "genome" ∈ tags
  · rw [if_pos htag, h1, h2, ← hfilt]
  · rw [if_neg htag, h2]

/-- C8: invalidation is exists-guarded deletion only: when no target artifact
exists it is a silent no-op; for any stage-tag list it never touches the raw
normalized genome files (`fasta/…`), the raw per-pair search-result tables
(`blast/…`), or the identity/fingerprint registries (the `labels.json` and
`rename.json` stores); and it never modifies or creates a file — every path
either keeps its exact content or is gone. -/
theorem remove_intermediates_frame (runid : String) (tags : List String)
    (s : RunState) :
    (∀ p, lookupFile (remove_intermediates runid tags s).files p =
        lookupFile s.files p ∨
      lookupFile (remove_intermediates runid tags s).files p = none) ∧
    (∀ b, lookupFile (remove_intermediates runid tags s).files ["fasta", b] =
      lookupFile s.files ["fasta", b]) ∧
    (∀ b, lookupFile (remove_intermediates runid tags s).files ["blast", b] =
      lookupFile s.files ["blast", b]) ∧
    (remove_intermediates runid tags s).labelsStore = s.labelsStore ∧
    (remove_intermediates runid tags s).renameStore = s.renameStore ∧
    ((∀ e ∈ s.files,
        genomeDelete e.1 = false ∧ nexDelete runid e.1 = false) →
      s.expectedFilt = none →
      remove_intermediates runid tags s = s) := by
  obtain ⟨hl, hr, _, _, _⟩ := remove_intermediates_stores runid tags s
  refine ⟨?_, ?_, ?_, hl, hr, fun h1 h2 =>
    remove_intermediates_noop runid tags s h1 h2⟩
  · intro p
    rw [remove_intermediates_files]
    by_cases htag : "genome" ∈ tags <;>
      rcases hn : nexDelete runid p with _ | _ <;>
        rcases hg : genomeDelete p with _ | _ <;> simp [htag]
  · intro b
    rw [remove_intermediates_files]
    have hnex : nexDelete runid ["fasta", b] = false := rfl
    have hgen : genomeDelete ["fasta", b] = false := by
      simp [genomeDelete]
    rw [hnex, hgen]
    by_cases htag : "genome" ∈ tags <;> simp [htag]
  · intro b
    rw [remove_intermediates_files]
    have hnex : nexDelete runid ["blast", b] = false := rfl
    have hgen : genomeDelete ["blast", b] = false := by
      simp [genomeDelete]
    rw [hnex, hgen]
    by_cases htag : "genome" ∈ tags <;> simp [htag]

theorem remove_intermediates_frame_witness :
    (∀ p, lookupFile (remove_intermediates "run" ["genome"]
        { freshState with files := [(["fasta", "g.fa"], "x")] }).files p =
        lookupFile [(["fasta", "g.fa"], "x")] p ∨
      lookupFile (remove_intermediates "run" ["genome"]
        { freshState with files := [(["fasta", "g.fa"], "x")] }).files p =
        none) ∧
    (∀ b, lookupFile (remove_intermediates "run" ["genome"]
        { freshState with files := [(["fasta", "g.fa"], "x")] }).files
        ["fasta", b] = lookupFile [(["fasta", "g.fa"], "x")] ["fasta", b]) ∧
    (∀ b, lookupFile (remove_intermediates "run" ["genome"]
        { freshState with files := [(["fasta", "g.fa"], "x")] }).files
        ["blast", b] = lookupFile [(["fasta", "g.fa"], "x")] ["blast", b]) ∧
    (remove_intermediates "run" ["genome"]
        { freshState with files := [(["fasta", "g.fa"], "x")] }).labelsStore =
      ({ freshState with
          files := [(["fasta", "g.fa"], "x")] } : RunState).labelsStore ∧
    (remove_intermediates "run" ["genome"]
        { freshState with files := [(["fasta", "g.fa"], "x")] }).renameStore =
      ({ freshState with
          files := [(["fasta", "g.fa"], "x")] } : RunState).renameStore ∧
    ((∀ e ∈ ({ freshState with
          files := [(["fasta", "g.fa"], "x")] } : RunState).files,
        genomeDelete e.1 = false ∧ nexDelete "run" e.1 = false) →
      ({ freshState with
          files := [(["fasta", "g.fa"], "x")] } : RunState).expectedFilt =
        none →
      remove_intermediates "run" ["genome"]
        { freshState with files := [(["fasta", "g.fa"], "x")] } =
        { freshState with files := [(["fasta", "g.fa"], "x")] }) :=
  remove_intermediates_frame "run" ["genome"]
    { freshState with files := [(["fasta", "g.fa"], "x")] }

/-! ## Query extraction: `get_queries` (autoMLSA.py:662-802)

The missing-file branch (lines 682-695: substitute the backup copy, or exit
66 when none exists) is not modelled: a `QueryFile` here is a readable input
file, which is the situation every claim below is about. -/

/-- One value of the per-run `seen` dict: source path, 1-based sequence
ordinal inside that file, and the unsanitized header id. -/
structure SeenEntry where
  path : String
  index : Nat
  unsafeid : String
deriving DecidableEq, Repr

/-- The fatal outcomes of `get_queries`.  Each constructor records exactly
the sources the code names before terminating. -/
inductive GQError where
  /-- Same sequence under two different ids in one file: the file is named
  once ("TWICE") with both header ids, then `end_program(65)`. -/
  | dupSeqSameFile (file : String) (id1 id2 : String)
  /-- Same sequence under two different ids in two files: after logging the
  second occurrence, the code calls `os.path.basname` (line 724), which does
  not exist — an uncaught `AttributeError`; the first source is never named
  and `end_program` is never reached. -/
  | dupSeqAttrError (file2 : String) (id2 : String)
  /-- Same sanitized id twice in one file without `--dups`: the file is
  named with both sequence ordinals, then `end_program(65)`. -/
  | dupIdSameFile (file : String) (idx1 idx2 : Nat)
  /-- Same sanitized id in two files without `--dups`: both files and both
  sequence ordinals are named, then `end_program(65)`. -/
  | dupIdTwoFiles (file2 : String) (idx2 : Nat) (file1 : String) (idx1 : Nat)
deriving DecidableEq, Repr

/-- Exit status reached for each error: `end_program(65)` for the three
configuration errors, none for the uncaught `AttributeError` (the
interpreter dies with a traceback instead of the documented exit path). -/
def gqExitCode : GQError → Option Nat
  | .dupSeqSameFile _ _ _ => some 65
  | .dupSeqAttrError _ _ => none
  | .dupIdSameFile _ _ _ => some 65
  | .dupIdTwoFiles _ _ _ _ => some 65

/-- Loop state of `get_queries`: the `seen` and `hashes` dicts, the
accumulated `new_queries` list, and the filesystem. -/
structure GQState where
  seen : List (String × SeenEntry)
  hashes : List (String × String)
  new_queries : List Path
  files : FileMap
deriving DecidableEq, Repr

/-- Raw content of a query input file, reconstructed from its records (used
for the backup copy made at the end of each file's loop). -/
def renderQueryFile (records : List FastaRecord) : String :=
  records.foldl (fun acc r => acc ++ ">" ++ r.id ++ "\n" ++ r.seq ++ "\n") ""

/-- The per-query output path `queries/{safeid}_{seqhash}.fas`. -/
def queryOutPath (safeid seqhash : String) : Path :=
  ["queries", safeid ++ "_" ++ seqhash ++ ".fas"]

/-- Tail of the record loop once the duplicate checks pass: record the entry
in `seen`, append the output path, and write the single-record FASTA only
when the file does not already exist. -/
def gq_emit (qf : QueryFile) (rec : FastaRecord) (i : Nat)
    (safeid seqhash : String) (st : GQState) : GQState :=
  { seen := assocSet st.seen safeid ⟨qf.path, i, rec.id⟩,
    hashes := st.hashes,
    new_queries := st.new_queries ++ [queryOutPath safeid seqhash],
    files :=
      if pathExists st.files (queryOutPath safeid seqhash) then st.files
      else writeFile st.files (queryOutPath safeid seqhash)
        (">" ++ safeid ++ "\n" ++ rec.seq ++ "\n") }

/-- The `for rec in SeqIO.parse(...)` loop of `get_queries` over one file.
`i` is the 1-based ordinal; the silent-skip branch `continue`s without
reaching the `i += 1` at the end of the loop body. -/
def get_queries_records (hashFn : String → String) (dups : Bool)
    (qf : QueryFile) : List FastaRecord → Nat → GQState →
    Except (GQError × GQState) GQState
  | [], _, st => .ok st
  | rec :: rest, i, st =>
    let safeid := sanitize_path rec.id
    let seqhash := hashFn rec.seq
    match assocLookup st.hashes seqhash with
    | some owner =>
      if owner = safeid then
        get_queries_records hashFn dups qf rest i st
      else
        let entry := (assocLookup st.seen owner).getD ⟨"", 0, ""⟩
        if qf.path = entry.path then
          .error (.dupSeqSameFile qf.path entry.unsafeid rec.id, st)
        else
          .error (.dupSeqAttrError qf.path rec.id, st)
    | none =>
      let st1 := { st with hashes := assocSet st.hashes seqhash safeid }
      match assocLookup st1.seen safeid with
      | some prev =>
        if dups then
          get_queries_records hashFn dups qf rest (i + 1)
            (gq_emit qf rec i safeid seqhash st1)
        else if qf.path = prev.path then
          .error (.dupIdSameFile qf.path prev.index i, st1)
        else
          .error (.dupIdTwoFiles qf.path i prev.path prev.index, st1)
      | none =>
        get_queries_records hashFn dups qf rest (i + 1)
          (gq_emit qf rec i safeid seqhash st1)

/-- The `for query_file in queries` loop: process each file's records, then
copy the file into `.autoMLSA/backups`. -/
def get_queries_files (hashFn : String → String) (dups : Bool) :
    List QueryFile → GQState → Except (GQError × GQState) GQState
  | [], st => .ok st
  | qf :: rest, st =>
    match get_queries_records hashFn dups qf qf.records 1 st with
    | .error e => .error e
    | .ok st1 =>
      get_queries_files hashFn dups rest
        { st1 with
          files := writeFile st1.files [".autoMLSA", "backups", qf.path]
                     (renderQueryFile qf.records) }

/-- Result of `get_queries`: the extracted query paths and change flag, or a
fatal error; either way the filesystem as left behind. -/
inductive GQResult where
  | ok : List Path → Bool → RunState → GQResult
  | err : GQError → RunState → GQResult
deriving DecidableEq, Repr

/-- `get_queries`: extract every query record, then compare the produced
path list against `expected_queries.json` (as sets) and persist the new
list unconditionally. -/
def get_queries (hashFn : String → String) (dups : Bool)
    (queries : List QueryFile) (s : RunState) : GQResult :=
  match get_queries_files hashFn dups queries ⟨[], [], [], s.files⟩ with
  | .error (e, st) => .err e { s with files := st.files }
  | .ok st =>
    .ok st.new_queries (pySetNe (s.expectedQueries.getD []) st.new_queries)
      { s with files := st.files, expectedQueries := some st.new_queries }

/-! ## Result parsing and filtering: `read_blast_results` and
`print_blast_summary` (util/blast_parser.py:21-55 and 58-178)

The pandas data-frame operations are opaque to the engine: `prep` stands for
parse-and-filter of the concatenated raw BLAST text into the cached result
table, and `summarize` for the presence/absence analysis producing the list
of kept genome names and the total genome count.  The summary artifact
writes (`presence_matrix.tsv`, `keepsidx.json`, `blast_filtered.tsv`, the
summary JSONs) are report outputs no claim depends on and are not
modelled.  `print_blast_summary_tail` embeds the function's own filtering
tail; note that `main`'s call to the function is arity-broken (see
`runAfterQueries`), so in the composition as written the tail runs only in
the intended variant `runAfterQueriesIntended`. -/

/-- The per-file loop of `read_blast_results` (util/blast_parser.py:47-50):
`pd.read_csv(blastfile, ...)` on each listed output in order, appended into
one table — modelled as the concatenation of the raw texts; a missing file
raises `FileNotFoundError` naming it (the first absent file in list
order). -/
def readAppend (files : FileMap) : List Path → Except Path String
  | [] => .ok ""
  | p :: ps =>
    match lookupFile files p with
    | none => .error p
    | some c =>
      match readAppend files ps with
      | .error q => .error q
      | .ok rest => .ok (c ++ rest)

/-- `read_blast_results`: reuse the cached `.autoMLSA/blast_results.tsv`
when present, otherwise read every BLAST output file (an absent one raises
`FileNotFoundError`), filter, and write the cache; on success mark the
`read_blast_results` checkpoint. -/
def read_blast_results (prep : String → String) (blastout : List Path)
    (files : FileMap) : Except Path (String × FileMap) :=
  match lookupFile files [".autoMLSA", "blast_results.tsv"] with
  | some cached =>
    .ok (cached, checkpoint_tracker "read_blast_results" files)
  | none =>
    match readAppend files blastout with
    | .error p => .error p
    | .ok raw =>
      .ok (prep raw, checkpoint_tracker "read_blast_results"
        (writeFile files [".autoMLSA", "blast_results.tsv"] (prep raw)))

/-- Filtering tail of `print_blast_summary` (blast_parser.py:149-177): if
some genome misses a gene and `--missing_check` was not given, `exit(1)`
(`none`); otherwise compare `keeps` against `expected_filt.json` as sets,
invalidate downstream intermediates on change, persist `keeps`
unconditionally, and mark the checkpoint. -/
def print_blast_summary_tail (runid : String) (keeps : List String)
    (gcount : Nat) (missing_check : Bool) (s : RunState) :
    Option (Bool × RunState) :=
  if keeps.length < gcount && !missing_check then none
  else
    let updated := pySetNe (s.expectedFilt.getD []) keeps
    let s1 := if updated then remove_intermediates runid ["genome"] s else s
    some (updated,
      { s1 with
        expectedFilt := some keeps,
        files := checkpoint_tracker "print_blast_summary" s1.files })

/-- C6: at each of the three expected-set comparison sites — normalized
genome artifacts (`convert_fasta`), extracted query artifacts
(`get_queries`), and the filtered genome set (`print_blast_summary`) — the
change signal is exactly set inequality of the previous snapshot (empty when
absent) against the current list, order irrelevant and duplicates
collapsed; and the current list is persisted as the new snapshot
unconditionally, whether or not a change was signalled. -/
theorem expected_set_tracking (fastas : List GenomeFile)
    (labels : List String) (hashFn : String → String) (dups : Bool)
    (queries : List QueryFile) (runid : String) (keeps : List String)
    (gcount : Nat) (missing_check : Bool) (s : RunState) :
    ((convert_fasta fastas labels s).2.1 =
        decide ((s.expectedFastas.getD []).toFinset ≠
          (convert_fasta fastas labels s).1.toFinset) ∧
      (convert_fasta fastas labels s).2.2.expectedFastas =
        some (convert_fasta fastas labels s).1) ∧
    (∀ nq upd s', get_queries hashFn dups queries s = .ok nq upd s' →
      upd = decide ((s.expectedQueries.getD []).toFinset ≠ nq.toFinset) ∧
        s'.expectedQueries = some nq) ∧
    (∀ upd s', print_blast_summary_tail runid keeps gcount missing_check s =
        some (upd, s') →
      upd = decide ((s.expectedFilt.getD []).toFinset ≠ keeps.toFinset) ∧
        s'.expectedFilt = some keeps) := by
  refine ⟨⟨?_, rfl⟩, ?_, ?_⟩
  · rw [← pySetNe_eq_decide]
    rfl
  · intro nq upd s' h
    unfold get_queries at h
    rcases hf : get_queries_files hashFn dups queries ⟨[], [], [], s.files⟩
      with e | st
    · rw [hf] at h
      exact absurd h (by rcases e with ⟨e, st⟩; intro hc; cases hc)
    · rw [hf] at h
      cases h
      exact ⟨(pySetNe_eq_decide _ _), rfl⟩
  · intro upd s' h
    unfold print_blast_summary_tail at h
    rcases hc : keeps.length < gcount && !missing_check with _ | _
    · rw [hc] at h
      simp only [Bool.false_eq_true, if_false, Option.some.injEq] at h
      obtain ⟨h1, h2⟩ := Prod.mk.injEq .. ▸ h
      constructor
      · rw [← h1, pySetNe_eq_decide]
      · rw [← h2]
    · rw [hc] at h
      simp at h

theorem expected_set_tracking_witness :
    (((convert_fasta [] [] freshState).2.1 =
        decide (((freshState.expectedFastas.getD []).toFinset : Finset Path) ≠
          (convert_fasta [] [] freshState).1.toFinset) ∧
      (convert_fasta [] [] freshState).2.2.expectedFastas =
        some (convert_fasta [] [] freshState).1) ∧
    (∀ nq upd s',
        get_queries (fun x => x) false [] freshState = .ok nq upd s' →
      upd = decide (((freshState.expectedQueries.getD []).toFinset :
            Finset Path) ≠ nq.toFinset) ∧
        s'.expectedQueries = some nq) ∧
    (∀ upd s', print_blast_summary_tail "run" ["g.fa"] 1 false freshState =
        some (upd, s') →
      upd = decide (((freshState.expectedFilt.getD []).toFinset :
            Finset String) ≠ (["g.fa"] : List String).toFinset) ∧
        s'.expectedFilt = some ["g.fa"])) :=
  expected_set_tracking [] [] (fun x => x) false [] "run" ["g.fa"] 1 false
    freshState

theorem string_append_cancel_right {a b c : String} (h : a ++ c = b ++ c) :
    a = b := by
  have h2 := congrArg String.data h
  simp only [String.data_append] at h2
  have h3 := List.append_cancel_right h2
  cases a
  cases b
  exact congrArg String.mk h3

theorem string_append_cancel_left {a b c : String} (h : c ++ a = c ++ b) :
    a = b := by
  have h2 := congrArg String.data h
  simp only [String.data_append] at h2
  have h3 := List.append_cancel_left h2
  cases a
  cases b
  exact congrArg String.mk h3

theorem queryOutPath_ne_of_hash_ne (said hA hB : String) (h : hA ≠ hB) :
    queryOutPath said hA ≠ queryOutPath said hB := by
  intro hc
  unfold queryOutPath at hc
  have h2 : said ++ "_" ++ hA ++ ".fas" = said ++ "_" ++ hB ++ ".fas" := by
    injection hc with _ hc2
    injection hc2 with hc2 _
  exact h (string_append_cancel_left (string_append_cancel_right h2))

theorem backup_ne_query (a x : String) :
    ([".autoMLSA", "backups", a] : Path) ≠ ["queries", x] := by
  simp

theorem gq_emit_seen (qf : QueryFile) (rec : FastaRecord) (i : Nat)
    (said seqhash : String) (st : GQState) :
    (gq_emit qf rec i said seqhash st).seen =
      assocSet st.seen said ⟨qf.path, i, rec.id⟩ := rfl

theorem gq_emit_hashes (qf : QueryFile) (rec : FastaRecord) (i : Nat)
    (said seqhash : String) (st : GQState) :
    (gq_emit qf rec i said seqhash st).hashes = st.hashes := rfl

theorem gq_emit_new_queries (qf : QueryFile) (rec : FastaRecord) (i : Nat)
    (said seqhash : String) (st : GQState) :
    (gq_emit qf rec i said seqhash st).new_queries =
      st.new_queries ++ [queryOutPath said seqhash] := rfl

theorem gq_emit_files (qf : QueryFile) (rec : FastaRecord) (i : Nat)
    (said seqhash : String) (st : GQState) :
    (gq_emit qf rec i said seqhash st).files =
      (if pathExists st.files (queryOutPath said seqhash) = true then st.files
       else writeFile st.files (queryOutPath said seqhash)
         (">" ++ said ++ "\n" ++ rec.seq ++ "\n")) := rfl

theorem gq_emit_exists (qf : QueryFile) (rec : FastaRecord) (i : Nat)
    (said seqhash : String) (st : GQState) :
    pathExists (gq_emit qf rec i said seqhash st).files
      (queryOutPath said seqhash) = true := by
  rw [pathExists, gq_emit_files]
  rcases h : pathExists st.files (queryOutPath said seqhash) with _ | _
  · rw [if_neg (by simp [h]), lookupFile_writeFile_self]
    rfl
  · rw [if_pos (by simp [h])]
    rw [pathExists] at h
    exact h

theorem gq_emit_frame (qf : QueryFile) (rec : FastaRecord) (i : Nat)
    (said seqhash : String) (st : GQState) (p : Path)
    (hne : p ≠ queryOutPath said seqhash) :
    lookupFile (gq_emit qf rec i said seqhash st).files p =
      lookupFile st.files p := by
  rw [gq_emit_files]
  rcases h : pathExists st.files (queryOutPath said seqhash) with _ | _
  · rw [if_neg (by simp [h])]
    exact lookupFile_writeFile_ne _ _ _ _ hne
  · rw [if_pos (by simp [h])]

/-- C3 counterexample: two query files each contain a record with id
`geneA` and different sequences, duplicates disallowed.  The run does
terminate with the configuration error naming both files and both sequence
ordinals (exit 65) — but an output file for the first offending record,
`queries/geneA_AAA.fas`, has already been written by the time the duplicate
is detected, refuting "writes no per-query output file for either". -/
theorem duplicate_id_counterexample :
    get_queries (fun x => x) false
        [⟨"a.fas", [⟨"geneA", "AAA"⟩]⟩, ⟨"b.fas", [⟨"geneA", "CCC"⟩]⟩]
        freshState =
      .err (.dupIdTwoFiles "b.fas" 1 "a.fas" 1)
        { files := [([".autoMLSA", "backups", "a.fas"], ">geneA\nAAA\n"),
                    (["queries", "geneA_AAA.fas"], ">geneA\nAAA\n")],
          labelsStore := none, renameStore := none, expectedFastas := none,
          expectedQueries := none, expectedFilt := none } ∧
    lookupFile [([".autoMLSA", "backups", "a.fas"], ">geneA\nAAA\n"),
        (["queries", "geneA_AAA.fas"], ">geneA\nAAA\n")]
      ["queries", "geneA_AAA.fas"] = some ">geneA\nAAA\n" := by
  constructor <;> decide

/-- C3 amended: with duplicates disallowed, a sanitized id occurring in two
distinct query files with different sequence content terminates the run with
a configuration error naming both source files and both sequence ordinals
and reaching `end_program(65)` (a distinct non-zero status); no output file
is written for the second offending record, but the first record's output
file has already been written and remains. -/
theorem duplicate_id_error (hashFn : String → String) (s : RunState)
    (qa qb : QueryFile) (ra rb : FastaRecord)
    (hra : qa.records = [ra]) (hrb : qb.records = [rb])
    (hid : sanitize_path rb.id = sanitize_path ra.id)
    (hh : hashFn rb.seq ≠ hashFn ra.seq)
    (hp : qb.path ≠ qa.path) :
    ∃ s', get_queries hashFn false [qa, qb] s =
        .err (.dupIdTwoFiles qb.path 1 qa.path 1) s' ∧
      gqExitCode (GQError.dupIdTwoFiles qb.path 1 qa.path 1) = some 65 ∧
      (some 65 : Option Nat) ≠ some 0 ∧
      pathExists s'.files
        (queryOutPath (sanitize_path ra.id) (hashFn ra.seq)) = true ∧
      lookupFile s'.files
          (queryOutPath (sanitize_path rb.id) (hashFn rb.seq)) =
        lookupFile s.files
          (queryOutPath (sanitize_path rb.id) (hashFn rb.seq)) := by
  have hrecA : get_queries_records hashFn false qa qa.records 1
      ⟨[], [], [], s.files⟩ =
      .ok (gq_emit qa ra 1 (sanitize_path ra.id) (hashFn ra.seq)
        ⟨[], [(hashFn ra.seq, sanitize_path ra.id)], [], s.files⟩) := by
    rw [hra]
    rfl
  have hstep : get_queries_files hashFn false [qa, qb] ⟨[], [], [], s.files⟩ =
      get_queries_files hashFn false [qb]
        ⟨[(sanitize_path ra.id, ⟨qa.path, 1, ra.id⟩)],
         [(hashFn ra.seq, sanitize_path ra.id)],
         [queryOutPath (sanitize_path ra.id) (hashFn ra.seq)],
         writeFile (gq_emit qa ra 1 (sanitize_path ra.id) (hashFn ra.seq)
             ⟨[], [(hashFn ra.seq, sanitize_path ra.id)], [], s.files⟩).files
           [".autoMLSA", "backups", qa.path] (renderQueryFile qa.records)⟩ := by
    rw [get_queries_files, hrecA]
    rfl
  have hb1 : assocLookup ([(hashFn ra.seq, sanitize_path ra.id)] :
      List (String × String)) (hashFn rb.seq) = none := by
    simp only [assocLookup]
    rw [if_neg (fun hc => hh hc.symm)]
  have hb2 : assocLookup ([(sanitize_path ra.id,
      (⟨qa.path, 1, ra.id⟩ : SeenEntry))] : List (String × SeenEntry))
      (sanitize_path rb.id) = some ⟨qa.path, 1, ra.id⟩ := by
    simp only [assocLookup]
    rw [if_pos hid.symm]
  have hrecB : get_queries_records hashFn false qb qb.records 1
      ⟨[(sanitize_path ra.id, ⟨qa.path, 1, ra.id⟩)],
       [(hashFn ra.seq, sanitize_path ra.id)],
       [queryOutPath (sanitize_path ra.id) (hashFn ra.seq)],
       writeFile (gq_emit qa ra 1 (sanitize_path ra.id) (hashFn ra.seq)
           ⟨[], [(hashFn ra.seq, sanitize_path ra.id)], [], s.files⟩).files
         [".autoMLSA", "backups", qa.path] (renderQueryFile qa.records)⟩ =
      .error (.dupIdTwoFiles qb.path 1 qa.path 1,
        ⟨[(sanitize_path ra.id, ⟨qa.path, 1, ra.id⟩)],
         assocSet [(hashFn ra.seq, sanitize_path ra.id)] (hashFn rb.seq)
           (sanitize_path rb.id),
         [queryOutPath (sanitize_path ra.id) (hashFn ra.seq)],
         writeFile (gq_emit qa ra 1 (sanitize_path ra.id) (hashFn ra.seq)
             ⟨[], [(hashFn ra.seq, sanitize_path ra.id)], [], s.files⟩).files
           [".autoMLSA", "backups", qa.path] (renderQueryFile qa.records)⟩) := by
    rw [hrb]
    simp only [get_queries_records, hb1, hb2]
    rw [if_neg hp, if_neg (by decide : ¬ (false = true))]
  have hrun : get_queries hashFn false [qa, qb] s =
      .err (.dupIdTwoFiles qb.path 1 qa.path 1)
        { s with files := writeFile (gq_emit qa ra 1 (sanitize_path ra.id) (hashFn ra.seq) ⟨[], [(hashFn ra.seq, sanitize_path ra.id)], [], s.files⟩).files [".autoMLSA", "backups", qa.path] (renderQueryFile qa.records) } := by
    unfold get_queries
    rw [hstep, get_queries_files, hrecB]
  refine ⟨_, hrun, rfl, by decide, ?_, ?_⟩
  · have hne1 : queryOutPath (sanitize_path ra.id) (hashFn ra.seq) ≠
        [".autoMLSA", "backups", qa.path] :=
      fun hc => backup_ne_query qa.path _ hc.symm
    show (lookupFile (writeFile _ _ _) _).isSome = true
    rw [lookupFile_writeFile_ne _ _ _ _ hne1]
    have h2 := gq_emit_exists qa ra 1 (sanitize_path ra.id) (hashFn ra.seq)
      ⟨[], [(hashFn ra.seq, sanitize_path ra.id)], [], s.files⟩
    rw [pathExists] at h2
    exact h2
  · have hne1 : queryOutPath (sanitize_path rb.id) (hashFn rb.seq) ≠
        [".autoMLSA", "backups", qa.path] :=
      fun hc => backup_ne_query qa.path _ hc.symm
    show lookupFile (writeFile _ _ _) _ = _
    rw [lookupFile_writeFile_ne _ _ _ _ hne1]
    rw [gq_emit_frame qa ra 1 (sanitize_path ra.id) (hashFn ra.seq) _ _
      (by rw [hid]; exact queryOutPath_ne_of_hash_ne _ _ _ hh)]

theorem duplicate_id_error_witness :
    ∃ s', get_queries (fun x => x) false
        [⟨"a.fas", [⟨"geneA", "AAA"⟩]⟩, ⟨"b.fas", [⟨"geneA", "CCC"⟩]⟩]
        freshState =
        .err (.dupIdTwoFiles "b.fas" 1 "a.fas" 1) s' ∧
      gqExitCode (GQError.dupIdTwoFiles "b.fas" 1 "a.fas" 1) = some 65 ∧
      (some 65 : Option Nat) ≠ some 0 ∧
      pathExists s'.files
        (queryOutPath (sanitize_path "geneA") ((fun x => x) "AAA")) = true ∧
      lookupFile s'.files
          (queryOutPath (sanitize_path "geneA") ((fun x => x) "CCC")) =
        lookupFile freshState.files
          (queryOutPath (sanitize_path "geneA") ((fun x => x) "CCC")) :=
  duplicate_id_error (fun x => x) freshState
    ⟨"a.fas", [⟨"geneA", "AAA"⟩]⟩ ⟨"b.fas", [⟨"geneA", "CCC"⟩]⟩
    ⟨"geneA", "AAA"⟩ ⟨"geneA", "CCC"⟩ rfl rfl rfl (by decide) (by decide)

/-- C4: two query records with identical sequence content.  When the
sanitized ids also match, the second occurrence is silently skipped and
processing continues (shown on a file whose duplicate record is dropped
while the run succeeds).  When the sanitized ids differ and the records come
from two different files, the code path that should report the
configuration error calls the nonexistent `os.path.basname` (autoMLSA.py
line 724) and dies with an uncaught `AttributeError`: no configuration exit
status is reached and the first offending source is never named. -/
theorem same_seq_diff_id_crash :
    get_queries (fun x => x) false
        [⟨"a.fas", [⟨"gene1", "ATGC"⟩]⟩, ⟨"b.fas", [⟨"gene2", "ATGC"⟩]⟩]
        freshState =
      .err (.dupSeqAttrError "b.fas" "gene2")
        { files := [([".autoMLSA", "backups", "a.fas"], ">gene1\nATGC\n"),
                    (["queries", "gene1_ATGC.fas"], ">gene1\nATGC\n")],
          labelsStore := none, renameStore := none, expectedFastas := none,
          expectedQueries := none, expectedFilt := none } ∧
    gqExitCode (GQError.dupSeqAttrError "b.fas" "gene2") = none ∧
    get_queries (fun x => x) false
        [⟨"a.fas", [⟨"gene1", "ATGC"⟩, ⟨"gene1", "ATGC"⟩, ⟨"gene2", "GGG"⟩]⟩]
        freshState =
      .ok [["queries", "gene1_ATGC.fas"], ["queries", "gene2_GGG.fas"]] true
        { files :=
            [([".autoMLSA", "backups", "a.fas"],
               ">gene1\nATGC\n>gene1\nATGC\n>gene2\nGGG\n"),
             (["queries", "gene2_GGG.fas"], ">gene2\nGGG\n"),
             (["queries", "gene1_ATGC.fas"], ">gene1\nATGC\n")],
          labelsStore := none, renameStore := none, expectedFastas := none,
          expectedQueries :=
            some [["queries", "gene1_ATGC.fas"], ["queries", "gene2_GGG.fas"]],
          expectedFilt := none } := by
  refine ⟨?_, rfl, ?_⟩ <;> decide

/-! ## One pipeline run: the engine part of `main` (autoMLSA.py:982-1033)

`main` composes label assignment, genome conversion, query extraction, the
BLAST list (with worker-pool dispatch) and result parsing, and then calls
`bp.print_blast_summary` with five positional arguments against the
seven-required-parameter definition (util/blast_parser.py:58-59), so the
composition as written dies there with an uncaught `TypeError`; the
statically-present continuation (autoMLSA.py:1024-1032) would pass the
three change flags to the downstream stages: `print_fasta_files` and
`run_mafft` receive `updated_genome or updated_filt`, `generate_nexus`
receives `updated_query`, and `run_iqtree` receives `updated_query or
updated_genome or updated_filt`.  `runOnce` embeds the composition as
written; `runOnceIntended` is the second, spec-words definition with the
filter call made as declared. -/

structure PipelineInput where
  runid : String
  dups : Bool
  missing_check : Bool
  fastas : List GenomeFile
  queries : List QueryFile
deriving DecidableEq, Repr

/-- Values produced by one run that the downstream stages consume. -/
structure RunOutput where
  labels : List String
  new_fastas : List Path
  updated_genome : Bool
  new_queries : List Path
  updated_query : Bool
  dispatched : List BlastCmd
  blastout : List Path
  keeps : List String
  updated_filt : Bool
deriving DecidableEq, Repr

/-- How a run ends.  `ok` carries what the downstream stages would consume
(reachable only in the intended composition: in the composition as written
the filter call crashes first); `err` is a `get_queries` configuration
error via `end_program`; `readErr` is the uncaught `FileNotFoundError` from
`pd.read_csv` on a missing search output; `typeErr` is the uncaught
`TypeError` raised at `main`'s five-argument `bp.print_blast_summary` call
(autoMLSA.py:1020-1023 against util/blast_parser.py:58-59); `stop` is
`exit(1)` from the missing-genes check (blast_parser.py:156, intended
composition only). -/
inductive RunResult where
  | ok : RunOutput → RunState → RunResult
  | err : GQError → RunState → RunResult
  | readErr : Path → RunState → RunResult
  | typeErr : RunState → RunResult
  | stop : Nat → RunState → RunResult
deriving DecidableEq, Repr

/-- The worker pool (`Pool(threads)` with `map`/`imap_unordered`): each
queued command runs the external search, leaving `extOut cmd.out` in its
`-out` file.  Jobs write to distinct paths, so the completion order does not
affect the resulting filesystem, which is modelled as the in-order fold. -/
def dispatch (extOut : Path → String) (cmds : List BlastCmd)
    (files : FileMap) : FileMap :=
  cmds.foldl (fun fs cmd => writeFile fs cmd.out (extOut cmd.out)) files

/-- The search-and-parse part of `main` after query extraction, as written
(autoMLSA.py:1012-1023): `generate_blast_list` with its worker-pool
dispatch, then `bp.read_blast_results`, and then the call
`bp.print_blast_summary(args.logger, blastres, labels, args.allow_missing,
args.missing_check)` — five positional arguments for a function declared
with seven required parameters and no defaults (util/blast_parser.py:58-59)
— so Python raises an uncaught `TypeError` at the call site, before the
summary body runs: `updated_filt` is never bound and none of the later
stages executes (`bp.print_fasta_files` is itself called with four
arguments against a three-parameter definition, autoMLSA.py:1024 against
blast_parser.py:181). -/
def runAfterQueries (prep : String → String) (extOut : Path → String)
    (new_fastas : List Path) (nq : List Path) (s1 : RunState) : RunResult :=
  let gb := generate_blast_list nq new_fastas s1.files
  let s2 := { s1 with files := dispatch extOut gb.1 s1.files }
  match read_blast_results prep gb.2 s2.files with
  | .error p => .readErr p s2
  | .ok rb => .typeErr { s2 with files := rb.2 }

/-- One run of `main`'s engine section as written (autoMLSA.py:1002-1023):
`get_labels`, `convert_fasta`, `get_queries`, then the search and parse
stages.  Every run ends in a `get_queries` configuration error, an uncaught
`FileNotFoundError`, or — whenever `read_blast_results` completes — the
uncaught `TypeError` of the arity-mismatched `bp.print_blast_summary`
call; the `.ok` outcome of the statically-present continuation (lines
1024-1032) is unreachable. -/
def runOnce (hashFn prep : String → String) (extOut : Path → String)
    (inp : PipelineInput) (s : RunState) : RunResult :=
  let labels := get_labels s.labelsStore (inp.fastas.map (fun g => g.base))
  let cf := convert_fasta inp.fastas labels { s with labelsStore := some labels }
  match get_queries hashFn inp.dups inp.queries cf.2.2 with
  | .err e s1 => .err e s1
  | .ok new_queries _ s1 => runAfterQueries prep extOut cf.1 new_queries s1

/-- Flag the continuation would pass to `print_fasta_files` (main line
1024-1025; statically present, dynamically unreachable). -/
def print_fasta_updated (o : RunOutput) : Bool :=
  o.updated_genome || o.updated_filt

/-- Flag the continuation would pass to `run_mafft` (main line
1028-1029). -/
def run_mafft_updated (o : RunOutput) : Bool :=
  o.updated_genome || o.updated_filt

/-- Flag the continuation would pass to `generate_nexus` (main line
1030). -/
def generate_nexus_updated (o : RunOutput) : Bool := o.updated_query

/-- Flag the continuation would pass to `run_iqtree` (main line
1031-1032). -/
def run_iqtree_updated (o : RunOutput) : Bool :=
  o.updated_query || o.updated_genome || o.updated_filt

/-- The filter stage as the spec's words describe it (and as the call sites
intend): the same composition with `bp.print_blast_summary` invoked as
declared — `(logger, runid, blastout, labels, nallowed, missing_check,
checkpoint)` — running the summary tail and returning the pair `main`
unpacks.  This second definition follows the spec, for comparison with
`runAfterQueries`, which embeds the call as written. -/
def runAfterQueriesIntended (prep : String → String)
    (summarize : String → List String × Nat) (extOut : Path → String)
    (inp : PipelineInput) (labels : List String) (new_fastas : List Path)
    (updated_genome : Bool) (nq : List Path) (uq : Bool) (s1 : RunState) :
    RunResult :=
  let gb := generate_blast_list nq new_fastas s1.files
  let s2 := { s1 with files := dispatch extOut gb.1 s1.files }
  match read_blast_results prep gb.2 s2.files with
  | .error p => .readErr p s2
  | .ok rb =>
    let s3 := { s2 with files := rb.2 }
    let sm := summarize rb.1
    match print_blast_summary_tail inp.runid sm.1 sm.2 inp.missing_check s3 with
    | none => .stop 1 s3
    | some us4 =>
      .ok ⟨labels, new_fastas, updated_genome, nq, uq, gb.1, gb.2,
        sm.1, us4.1⟩ us4.2

/-- One engine run with the filter call repaired to its declared signature
(the spec's intended composition); compare `runOnce`. -/
def runOnceIntended (hashFn prep : String → String)
    (summarize : String → List String × Nat) (extOut : Path → String)
    (inp : PipelineInput) (s : RunState) : RunResult :=
  let labels := get_labels s.labelsStore (inp.fastas.map (fun g => g.base))
  let cf := convert_fasta inp.fastas labels { s with labelsStore := some labels }
  match get_queries hashFn inp.dups inp.queries cf.2.2 with
  | .err e s1 => .err e s1
  | .ok new_queries updated_query s1 =>
    runAfterQueriesIntended prep summarize extOut inp labels cf.1 cf.2.1
      new_queries updated_query s1

theorem get_queries_ok_spec (hashFn : String → String) (dups : Bool)
    (queries : List QueryFile) (s : RunState) (nq : List Path) (uq : Bool)
    (s' : RunState) (h : get_queries hashFn dups queries s = .ok nq uq s') :
    uq = pySetNe (s.expectedQueries.getD []) nq ∧
      s'.expectedQueries = some nq ∧ s'.labelsStore = s.labelsStore ∧
      s'.renameStore = s.renameStore ∧
      s'.expectedFastas = s.expectedFastas ∧
      s'.expectedFilt = s.expectedFilt := by
  unfold get_queries at h
  rcases hf : get_queries_files hashFn dups queries ⟨[], [], [], s.files⟩
    with e | st
  · rw [hf] at h
    rcases e with ⟨e, st⟩
    cases h
  · rw [hf] at h
    cases h
    exact ⟨rfl, rfl, rfl, rfl, rfl, rfl⟩

/-- C2: a pure query removal — the previous run's `expected_queries.json`
lists `qa_AAA` and `qb_BBB`, the current inputs define only `qa`, and the
genome, search-output and result caches are present along with stale
genome-dependent artifacts (`unaligned/`, `aligned/`).  The run never
reaches an invalidation decision of any scope: `get_queries` persists the
shrunken query list, `read_blast_results` reuses its cache, and then `main`
dies with the uncaught `TypeError` of the five-argument
`bp.print_blast_summary` call (autoMLSA.py:1020-1023 against
util/blast_parser.py:58-59), before `updated_filt` is bound; every stale
genome-dependent artifact and the persisted `expected_filt.json` survive
unchanged. -/
theorem query_removal_typeerror :
    runOnce (fun x => x) (fun x => x) (fun _ => "hit")
        ⟨"run", false, true, [⟨"g.fa", [⟨"c", "A"⟩]⟩],
          [⟨"q.fas", [⟨"qa", "AAA"⟩]⟩]⟩
        { files := [(["fasta", "g.fa"], ">0 c\nA\n"),
                    (["blast", "qa_AAA_vs_g.fa.tab"], "hit"),
                    ([".autoMLSA", "blast_results.tsv"], "x"),
                    (["unaligned", "qa.fas"], ">g.fa\nAAA\n"),
                    (["unaligned", "qb.fas"], ">g.fa\nBBB\n"),
                    (["aligned", "qb.fas"], ">g.fa aligned\n")],
          labelsStore := some ["g.fa"],
          renameStore := some [("g.fa", ⟨0, some "c"⟩)],
          expectedFastas := some [["fasta", "g.fa"]],
          expectedQueries :=
            some [["queries", "qa_AAA.fas"], ["queries", "qb_BBB.fas"]],
          expectedFilt := some ["g.fa"] } =
      .typeErr
        { files := [([".autoMLSA", "checkpoint", "read_blast_results"], ""),
                    ([".autoMLSA", "backups", "q.fas"], ">qa\nAAA\n"),
                    (["queries", "qa_AAA.fas"], ">qa\nAAA\n"),
                    (["fasta", "g.fa"], ">0 c\nA\n"),
                    (["blast", "qa_AAA_vs_g.fa.tab"], "hit"),
                    ([".autoMLSA", "blast_results.tsv"], "x"),
                    (["unaligned", "qa.fas"], ">g.fa\nAAA\n"),
                    (["unaligned", "qb.fas"], ">g.fa\nBBB\n"),
                    (["aligned", "qb.fas"], ">g.fa aligned\n")],
          labelsStore := some ["g.fa"],
          renameStore := some [("g.fa", ⟨0, some "c"⟩)],
          expectedFastas := some [["fasta", "g.fa"]],
          expectedQueries := some [["queries", "qa_AAA.fas"]],
          expectedFilt := some ["g.fa"] } ∧
    (["queries", "qb_BBB.fas"] : Path) ∈
      [(["queries", "qa_AAA.fas"] : Path), ["queries", "qb_BBB.fas"]] ∧
    (["queries", "qb_BBB.fas"] : Path) ∉
      [(["queries", "qa_AAA.fas"] : Path)] := by
  refine ⟨?_, ?_, ?_⟩ <;> decide

/-- C7: the claimed idempotence is unrealizable in the composition as
written, because no invocation of the engine completes: every run ends in a
`get_queries` configuration error, an uncaught `FileNotFoundError` from a
missing search output, or — on every path that completes
`read_blast_results` — the uncaught `TypeError` of `main`'s five-argument
`bp.print_blast_summary` call (autoMLSA.py:1020-1023 against
util/blast_parser.py:58-59).  In particular no first run returns `.ok`, so
there is no completed first run for a byte-identical second run to follow.
The per-stage skipping the claim cites is real, and the claimed property
holds of the composition with the call repaired: see
`second_run_no_new_work_intended`. -/
theorem pipeline_never_completes (hashFn prep : String → String)
    (extOut : Path → String) (inp : PipelineInput) (s : RunState) :
    (∃ e s1, runOnce hashFn prep extOut inp s = .err e s1) ∨
    (∃ p s2, runOnce hashFn prep extOut inp s = .readErr p s2) ∨
    (∃ s3, runOnce hashFn prep extOut inp s = .typeErr s3) := by
  unfold runOnce
  dsimp only
  split
  next e s1 heq => exact Or.inl ⟨e, s1, rfl⟩
  next nq uq s1 heq =>
    unfold runAfterQueries
    dsimp only
    split
    next p heq2 => exact Or.inr (Or.inl ⟨p, _, rfl⟩)
    next rb heq2 => exact Or.inr (Or.inr ⟨_, rfl⟩)

/-- A pure query removal under the intended composition (filter call
repaired): the previous run's `expected_queries.json` lists `qa_AAA` and
`qb_BBB`; the current inputs contain only `qa`.  The run sets the single
query-change flag (set inequality), but the flag the continuation hands to
the genome-dependent stages (`print_fasta_files`, `run_mafft`) is
`updated_genome or updated_filt`, which stays false: even repaired, removal
does not invalidate the per-genome filtering/alignment caches. -/
theorem query_removal_scoping_intended :
    runOnceIntended (fun x => x) (fun x => x) (fun _ => (["g.fa"], 1))
        (fun _ => "hit")
        ⟨"run", false, true, [⟨"g.fa", [⟨"c", "A"⟩]⟩],
          [⟨"q.fas", [⟨"qa", "AAA"⟩]⟩]⟩
        { files := [(["fasta", "g.fa"], ">0 c\nA\n"),
                    (["blast", "qa_AAA_vs_g.fa.tab"], "hit"),
                    ([".autoMLSA", "blast_results.tsv"], "x")],
          labelsStore := some ["g.fa"],
          renameStore := some [("g.fa", ⟨0, some "c"⟩)],
          expectedFastas := some [["fasta", "g.fa"]],
          expectedQueries :=
            some [["queries", "qa_AAA.fas"], ["queries", "qb_BBB.fas"]],
          expectedFilt := some ["g.fa"] } =
      .ok ⟨["g.fa"], [["fasta", "g.fa"]], false, [["queries", "qa_AAA.fas"]],
          true, [], [["blast", "qa_AAA_vs_g.fa.tab"]], ["g.fa"], false⟩
        { files := [([".autoMLSA", "checkpoint", "print_blast_summary"], ""),
                    ([".autoMLSA", "checkpoint", "read_blast_results"], ""),
                    ([".autoMLSA", "backups", "q.fas"], ">qa\nAAA\n"),
                    (["queries", "qa_AAA.fas"], ">qa\nAAA\n"),
                    (["fasta", "g.fa"], ">0 c\nA\n"),
                    (["blast", "qa_AAA_vs_g.fa.tab"], "hit"),
                    ([".autoMLSA", "blast_results.tsv"], "x")],
          labelsStore := some ["g.fa"],
          renameStore := some [("g.fa", ⟨0, some "c"⟩)],
          expectedFastas := some [["fasta", "g.fa"]],
          expectedQueries := some [["queries", "qa_AAA.fas"]],
          expectedFilt := some ["g.fa"] } ∧
    (["queries", "qb_BBB.fas"] : Path) ∈
      [(["queries", "qa_AAA.fas"] : Path), ["queries", "qb_BBB.fas"]] ∧
    (["queries", "qb_BBB.fas"] : Path) ∉ [(["queries", "qa_AAA.fas"] : Path)] ∧
    run_mafft_updated ⟨["g.fa"], [["fasta", "g.fa"]], false,
        [["queries", "qa_AAA.fas"]], true, [],
        [["blast", "qa_AAA_vs_g.fa.tab"]], ["g.fa"], false⟩ = false ∧
    print_fasta_updated ⟨["g.fa"], [["fasta", "g.fa"]], false,
        [["queries", "qa_AAA.fas"]], true, [],
        [["blast", "qa_AAA_vs_g.fa.tab"]], ["g.fa"], false⟩ = false ∧
    generate_nexus_updated ⟨["g.fa"], [["fasta", "g.fa"]], false,
        [["queries", "qa_AAA.fas"]], true, [],
        [["blast", "qa_AAA_vs_g.fa.tab"]], ["g.fa"], false⟩ = true := by
  refine ⟨?_, ?_, ?_, rfl, rfl, rfl⟩ <;> decide

/-- Scoping of the change flags in the statically-written continuation,
under the intended composition: query-set changes — additive and removals
alike — set a single change flag, the set inequality of previous versus
current query artifacts; that flag gates only the query-dependent stages
(`generate_nexus` and, together with the other flags, `run_iqtree`), while
the genome-dependent stages (`print_fasta_files`, `run_mafft`) are gated
solely by the genome-conversion and filtered-set flags. -/
theorem invalidation_scoping_intended (hashFn prep : String → String)
    (summarize : String → List String × Nat) (extOut : Path → String)
    (inp : PipelineInput) (s : RunState) (out : RunOutput) (s' : RunState)
    (h : runOnceIntended hashFn prep summarize extOut inp s = .ok out s') :
    out.updated_query = pySetNe (s.expectedQueries.getD []) out.new_queries ∧
      run_mafft_updated out = (out.updated_genome || out.updated_filt) ∧
      print_fasta_updated out = (out.updated_genome || out.updated_filt) ∧
      generate_nexus_updated out = out.updated_query ∧
      run_iqtree_updated out =
        (out.updated_query || out.updated_genome || out.updated_filt) := by
  refine ⟨?_, rfl, rfl, rfl, rfl⟩
  unfold runOnceIntended at h
  dsimp only at h
  split at h
  next e s1 heq => cases h
  next nq uq s1 heq =>
    unfold runAfterQueriesIntended at h
    dsimp only at h
    split at h
    next => cases h
    next rb heqRB =>
      split at h
      next => cases h
      next us4 htail =>
        cases h
        obtain ⟨huq, _, _, _, _, _⟩ := get_queries_ok_spec _ _ _ _ _ _ _ heq
        have hpres := convert_fasta_state inp.fastas
          (get_labels s.labelsStore (inp.fastas.map (fun g => g.base)))
          { s with labelsStore := some (get_labels s.labelsStore
              (inp.fastas.map (fun g => g.base))) }
        show uq = _
        rw [huq, hpres.2.2.2.1]

theorem invalidation_scoping_intended_witness :
    (⟨["g.fa"], [["fasta", "g.fa"]], false, [["queries", "qa_AAA.fas"]],
        true, [], [["blast", "qa_AAA_vs_g.fa.tab"]], ["g.fa"],
        false⟩ : RunOutput).updated_query =
      pySetNe ((some [(["queries", "qa_AAA.fas"] : Path),
          ["queries", "qb_BBB.fas"]]).getD [])
        (⟨["g.fa"], [["fasta", "g.fa"]], false, [["queries", "qa_AAA.fas"]],
          true, [], [["blast", "qa_AAA_vs_g.fa.tab"]], ["g.fa"],
          false⟩ : RunOutput).new_queries ∧
    run_mafft_updated ⟨["g.fa"], [["fasta", "g.fa"]], false,
        [["queries", "qa_AAA.fas"]], true, [],
        [["blast", "qa_AAA_vs_g.fa.tab"]], ["g.fa"], false⟩ =
      (false || false) ∧
    print_fasta_updated ⟨["g.fa"], [["fasta", "g.fa"]], false,
        [["queries", "qa_AAA.fas"]], true, [],
        [["blast", "qa_AAA_vs_g.fa.tab"]], ["g.fa"], false⟩ =
      (false || false) ∧
    generate_nexus_updated ⟨["g.fa"], [["fasta", "g.fa"]], false,
        [["queries", "qa_AAA.fas"]], true, [],
        [["blast", "qa_AAA_vs_g.fa.tab"]], ["g.fa"], false⟩ = true ∧
    run_iqtree_updated ⟨["g.fa"], [["fasta", "g.fa"]], false,
        [["queries", "qa_AAA.fas"]], true, [],
        [["blast", "qa_AAA_vs_g.fa.tab"]], ["g.fa"], false⟩ =
      (true || false || false) :=
  invalidation_scoping_intended (fun x => x) (fun x => x)
    (fun _ => (["g.fa"], 1))
    (fun _ => "hit")
    ⟨"run", false, true, [⟨"g.fa", [⟨"c", "A"⟩]⟩],
      [⟨"q.fas", [⟨"qa", "AAA"⟩]⟩]⟩
    { files := [(["fasta", "g.fa"], ">0 c\nA\n"),
                (["blast", "qa_AAA_vs_g.fa.tab"], "hit"),
                ([".autoMLSA", "blast_results.tsv"], "x")],
      labelsStore := some ["g.fa"],
      renameStore := some [("g.fa", ⟨0, some "c"⟩)],
      expectedFastas := some [["fasta", "g.fa"]],
      expectedQueries :=
        some [["queries", "qa_AAA.fas"], ["queries", "qb_BBB.fas"]],
      expectedFilt := some ["g.fa"] }
    ⟨["g.fa"], [["fasta", "g.fa"]], false, [["queries", "qa_AAA.fas"]],
      true, [], [["blast", "qa_AAA_vs_g.fa.tab"]], ["g.fa"], false⟩
    { files := [([".autoMLSA", "checkpoint", "print_blast_summary"], ""),
                ([".autoMLSA", "checkpoint", "read_blast_results"], ""),
                ([".autoMLSA", "backups", "q.fas"], ">qa\nAAA\n"),
                (["queries", "qa_AAA.fas"], ">qa\nAAA\n"),
                (["fasta", "g.fa"], ">0 c\nA\n"),
                (["blast", "qa_AAA_vs_g.fa.tab"], "hit"),
                ([".autoMLSA", "blast_results.tsv"], "x")],
      labelsStore := some ["g.fa"],
      renameStore := some [("g.fa", ⟨0, some "c"⟩)],
      expectedFastas := some [["fasta", "g.fa"]],
      expectedQueries := some [["queries", "qa_AAA.fas"]],
      expectedFilt := some ["g.fa"] }
    (by decide)

/-! ## Lemmas towards second-run idempotence of the intended composition -/

theorem checkpoint_tracker_preserve (n : String) (files : FileMap) (p : Path)
    (c : String) (h : lookupFile files p = some c) :
    lookupFile (checkpoint_tracker n files) p = some c := by
  unfold checkpoint_tracker
  rcases he : pathExists files [".autoMLSA", "checkpoint", n] with _ | _
  · rw [if_neg (by simp [he])]
    have hne : p ≠ [".autoMLSA", "checkpoint", n] := by
      intro hc
      rw [hc] at h
      rw [pathExists_of_lookup h] at he
      exact Bool.noConfusion he
    rw [lookupFile_writeFile_ne _ _ _ _ hne]
    exact h
  · rw [if_pos (by simp [he])]
    exact h

theorem checkpoint_tracker_frame (n : String) (files : FileMap) (p : Path)
    (hne : p ≠ [".autoMLSA", "checkpoint", n]) :
    lookupFile (checkpoint_tracker n files) p = lookupFile files p := by
  unfold checkpoint_tracker
  rcases he : pathExists files [".autoMLSA", "checkpoint", n] with _ | _
  · rw [if_neg (by simp [he])]
    exact lookupFile_writeFile_ne _ _ _ _ hne
  · rw [if_pos (by simp [he])]

theorem dispatch_nil (extOut : Path → String) (files : FileMap) :
    dispatch extOut [] files = files := rfl

theorem dispatch_frame (extOut : Path → String) (cmds : List BlastCmd)
    (files : FileMap) (p : Path) (h : ∀ cmd ∈ cmds, p ≠ cmd.out) :
    lookupFile (dispatch extOut cmds files) p = lookupFile files p := by
  induction cmds generalizing files with
  | nil => rfl
  | cons cmd rest ih =>
    show lookupFile (dispatch extOut rest (writeFile files cmd.out
      (extOut cmd.out))) p = _
    rw [ih _ (fun c hc => h c (by simp [hc])),
      lookupFile_writeFile_ne _ _ _ _ (h cmd (by simp))]

theorem dispatch_mem (extOut : Path → String) (cmds : List BlastCmd)
    (files : FileMap) (p : Path) (h : p ∈ cmds.map (fun c => c.out)) :
    lookupFile (dispatch extOut cmds files) p = some (extOut p) := by
  induction cmds generalizing files with
  | nil => exact absurd h (by simp)
  | cons cmd rest ih =>
    show lookupFile (dispatch extOut rest (writeFile files cmd.out
      (extOut cmd.out))) p = _
    by_cases hmem : p ∈ rest.map (fun c => c.out)
    · exact ih _ hmem
    · have hp : p = cmd.out := by
        rcases List.mem_map.mp h with ⟨c, hc, hco⟩
        rcases List.mem_cons.mp hc with rfl | hc
        · exact hco.symm
        · exact absurd (List.mem_map.mpr ⟨c, hc, hco⟩) hmem
      rw [dispatch_frame _ _ _ _ (fun c hc hco =>
        hmem (List.mem_map.mpr ⟨c, hc, hco.symm⟩)), hp,
        lookupFile_writeFile_self]

theorem gbl_inner_cmds (queries : List Path) (target : Path)
    (files : FileMap) (acc : List BlastCmd × List Path)
    (h : ∀ q ∈ queries, ∃ c, lookupFile files (blastOutPath q target) =
      some c ∧ c ≠ "") :
    (queries.foldl (fun acc query =>
      let outpath := blastOutPath query target
      let cmds :=
        if pathExists files outpath then
          if getsize files outpath = 0 then acc.1 ++ [⟨target, query, outpath⟩]
          else acc.1
        else acc.1 ++ [⟨target, query, outpath⟩]
      (cmds, acc.2 ++ [outpath])) acc).1 = acc.1 := by
  induction queries generalizing acc with
  | nil => rfl
  | cons q qs ih =>
    rw [List.foldl_cons]
    obtain ⟨c, hc, hne⟩ := h q (by simp)
    have h1 : pathExists files (blastOutPath q target) = true :=
      pathExists_of_lookup hc
    have h2 : getsize files (blastOutPath q target) ≠ 0 := by
      rw [getsize, hc, Option.getD_some]
      intro h0
      apply hne
      cases c with
      | mk data =>
        rw [List.length_eq_zero.mp h0]
    have hstep : (if pathExists files (blastOutPath q target) then
        (if getsize files (blastOutPath q target) = 0 then
          acc.1 ++ [⟨target, q, blastOutPath q target⟩] else acc.1)
        else acc.1 ++ [⟨target, q, blastOutPath q target⟩]) = acc.1 := by
      rw [if_pos (by simp [h1]), if_neg h2]
    refine (ih _ (fun q hq => h q (by simp [hq]))).trans ?_
    show (if pathExists files (blastOutPath q target) = true then _ else _) = _
    rw [if_pos h1, if_neg h2]

theorem gbl_cmds_all_present (queries targets : List Path) (files : FileMap)
    (h : ∀ t ∈ targets, ∀ q ∈ queries, ∃ c,
      lookupFile files (blastOutPath q t) = some c ∧ c ≠ "") :
    (generate_blast_list queries targets files).1 = [] := by
  unfold generate_blast_list
  suffices hgen : ∀ acc : List BlastCmd × List Path,
      (targets.foldl (fun acc target =>
        queries.foldl (fun acc query =>
          let outpath := blastOutPath query target
          let cmds :=
            if pathExists files outpath then
              if getsize files outpath = 0 then
                acc.1 ++ [⟨target, query, outpath⟩]
              else acc.1
            else acc.1 ++ [⟨target, query, outpath⟩]
          (cmds, acc.2 ++ [outpath])) acc) acc).1 = acc.1 by
    exact hgen ([], [])
  induction targets with
  | nil => intro acc; rfl
  | cons t ts ih =>
    intro acc
    rw [List.foldl_cons]
    rw [ih (fun t ht q hq => h t (by simp [ht]) q hq)]
    exact gbl_inner_cmds queries t files acc (fun q hq => h t (by simp) q hq)

theorem gbl_inner_cmds_absent (queries : List Path) (target : Path)
    (files : FileMap) (acc : List BlastCmd × List Path)
    (h : ∀ q ∈ queries, lookupFile files (blastOutPath q target) = none) :
    (queries.foldl (fun acc query =>
      let outpath := blastOutPath query target
      let cmds :=
        if pathExists files outpath then
          if getsize files outpath = 0 then acc.1 ++ [⟨target, query, outpath⟩]
          else acc.1
        else acc.1 ++ [⟨target, query, outpath⟩]
      (cmds, acc.2 ++ [outpath])) acc).1 =
      acc.1 ++ queries.map (fun q => ⟨target, q, blastOutPath q target⟩) := by
  induction queries generalizing acc with
  | nil => simp
  | cons q qs ih =>
    rw [List.foldl_cons]
    have h1 : pathExists files (blastOutPath q target) = false := by
      rw [pathExists, h q (by simp)]
      rfl
    rw [ih _ (fun q hq => h q (by simp [hq]))]
    show (if pathExists files (blastOutPath q target) = true then _
      else acc.1 ++ [⟨target, q, blastOutPath q target⟩]) ++ _ = _
    rw [if_neg (by simp [h1]), List.map_cons, List.append_assoc]
    rfl

theorem gbl_cmds_all_absent (queries targets : List Path) (files : FileMap)
    (h : ∀ t ∈ targets, ∀ q ∈ queries,
      lookupFile files (blastOutPath q t) = none) :
    (generate_blast_list queries targets files).1 =
      targets.flatMap
        (fun t => queries.map (fun q => ⟨t, q, blastOutPath q t⟩)) := by
  unfold generate_blast_list
  suffices hgen : ∀ ts : List Path, (∀ t ∈ ts, ∀ q ∈ queries,
      lookupFile files (blastOutPath q t) = none) →
      ∀ acc : List BlastCmd × List Path,
      (ts.foldl (fun acc target =>
        queries.foldl (fun acc query =>
          let outpath := blastOutPath query target
          let cmds :=
            if pathExists files outpath then
              if getsize files outpath = 0 then
                acc.1 ++ [⟨target, query, outpath⟩]
              else acc.1
            else acc.1 ++ [⟨target, query, outpath⟩]
          (cmds, acc.2 ++ [outpath])) acc) acc).1 =
        acc.1 ++ ts.flatMap
          (fun t => queries.map (fun q => ⟨t, q, blastOutPath q t⟩)) by
    rw [hgen targets h ([], [])]
    rfl
  intro ts
  induction ts with
  | nil => intro _ acc; simp
  | cons t ts ih =>
    intro hts acc
    rw [List.foldl_cons, ih (fun t ht q hq => hts t (by simp [ht]) q hq),
      gbl_inner_cmds_absent queries t files acc
        (fun q hq => hts t (by simp) q hq),
      List.flatMap_cons, List.append_assoc]

theorem read_blast_results_cached (prep : String → String)
    (blastout : List Path) (files : FileMap) (c : String)
    (h : lookupFile files [".autoMLSA", "blast_results.tsv"] = some c) :
    read_blast_results prep blastout files =
      .ok (c, checkpoint_tracker "read_blast_results" files) := by
  unfold read_blast_results
  rw [h]

theorem read_blast_results_fresh (prep : String → String)
    (blastout : List Path) (files : FileMap) (raw : String)
    (h : lookupFile files [".autoMLSA", "blast_results.tsv"] = none)
    (hr : readAppend files blastout = .ok raw) :
    read_blast_results prep blastout files =
      .ok (prep raw, checkpoint_tracker "read_blast_results"
        (writeFile files [".autoMLSA", "blast_results.tsv"] (prep raw))) := by
  unfold read_blast_results
  rw [h, hr]

theorem readAppend_nil (files : FileMap) : readAppend files [] = .ok "" := rfl

theorem readAppend_cons (files : FileMap) (p : Path) (ps : List Path) :
    readAppend files (p :: ps) =
      match lookupFile files p with
      | none => .error p
      | some c =>
        match readAppend files ps with
        | .error q => .error q
        | .ok rest => .ok (c ++ rest) := rfl

theorem readAppend_exists : ∀ (blastout : List Path) (files : FileMap),
    (∀ p ∈ blastout, ∃ c, lookupFile files p = some c) →
    ∃ raw, readAppend files blastout = .ok raw
  | [], _, _ => ⟨"", rfl⟩
  | p :: ps, files, h => by
    obtain ⟨c, hc⟩ := h p (by simp)
    obtain ⟨raw, hraw⟩ := readAppend_exists ps files
      (fun q hq => h q (by simp [hq]))
    exact ⟨c ++ raw, by rw [readAppend_cons, hc, hraw]⟩

theorem readAppend_congr : ∀ (blastout : List Path) (f1 f2 : FileMap),
    (∀ p ∈ blastout, lookupFile f1 p = lookupFile f2 p) →
    readAppend f1 blastout = readAppend f2 blastout
  | [], _, _, _ => rfl
  | p :: ps, f1, f2, h => by
    rw [readAppend_cons, readAppend_cons, h p (by simp),
      readAppend_congr ps f1 f2 (fun q hq => h q (by simp [hq]))]

theorem tail_spec (runid : String) (keeps : List String) (gcount : Nat)
    (mc : Bool) (s : RunState) (upd : Bool) (s' : RunState)
    (h : print_blast_summary_tail runid keeps gcount mc s = some (upd, s')) :
    upd = pySetNe (s.expectedFilt.getD []) keeps ∧
      s'.expectedFilt = some keeps ∧
      s'.labelsStore = s.labelsStore ∧
      s'.renameStore = s.renameStore ∧
      s'.expectedFastas = s.expectedFastas ∧
      s'.expectedQueries = s.expectedQueries ∧
      (keeps.length < gcount && !mc) = false ∧
      (∀ p, p ≠ [".autoMLSA", "checkpoint", "print_blast_summary"] →
        genomeDelete p = false → nexDelete runid p = false →
        lookupFile s'.files p = lookupFile s.files p) ∧
      (∀ p, p ≠ [".autoMLSA", "checkpoint", "print_blast_summary"] →
        lookupFile s'.files p = lookupFile s.files p ∨
          lookupFile s'.files p = none) := by
  unfold print_blast_summary_tail at h
  rcases hstop : keeps.length < gcount && !mc with _ | _
  · rw [hstop] at h
    simp only [Bool.false_eq_true, if_false, Option.some.injEq] at h
    obtain ⟨h1, h2⟩ := Prod.mk.injEq .. ▸ h
    subst h1
    subst h2
    rcases hupd : pySetNe (s.expectedFilt.getD []) keeps with _ | _
    · simp only [Bool.false_eq_true, if_false]
      refine ⟨by trivial, by trivial, by trivial, by trivial, by trivial,
        by trivial, by trivial, ?_, ?_⟩
      · intro p hm _ _
        exact checkpoint_tracker_frame _ _ _ hm
      · intro p hm
        exact Or.inl (checkpoint_tracker_frame _ _ _ hm)
    · simp only [if_true]
      obtain ⟨hl, hr, hef, heq, _⟩ :=
        remove_intermediates_stores runid ["genome"] s
      refine ⟨by trivial, by trivial, hl, hr, hef, heq, by trivial, ?_, ?_⟩
      · intro p hm hg hn
        rw [checkpoint_tracker_frame _ _ _ hm,
          remove_intermediates_files, hn, hg]
        simp
      · intro p hm
        rw [checkpoint_tracker_frame _ _ _ hm, remove_intermediates_files]
        rcases nexDelete runid p with _ | _
        · rcases genomeDelete p with _ | _ <;> simp
        · simp
  · rw [hstop] at h
    simp at h

/-- Filesystem left behind by a `get_queries` loop, on success or error. -/
def gqResultFiles : Except (GQError × GQState) GQState → FileMap
  | .error e => e.2.files
  | .ok st => st.files

theorem gq_emit_changes (qf : QueryFile) (rec : FastaRecord) (i : Nat)
    (said seqhash : String) (st : GQState) (p : Path) :
    lookupFile (gq_emit qf rec i said seqhash st).files p =
        lookupFile st.files p ∨
      lookupFile st.files p = none := by
  rw [gq_emit_files]
  rcases h : pathExists st.files (queryOutPath said seqhash) with _ | _
  · by_cases hp : p = queryOutPath said seqhash
    · right
      rw [hp]
      rw [pathExists] at h
      rcases hl : lookupFile st.files (queryOutPath said seqhash) with _ | c
      · rfl
      · rw [hl] at h
        exact Bool.noConfusion h
    · left
      rw [if_neg (by simp [h])]
      exact lookupFile_writeFile_ne _ _ _ _ hp
  · left
    rw [if_pos (by simp [h])]

theorem gq_records_changes (hashFn : String → String) (dups : Bool)
    (qf : QueryFile) :
    ∀ (recs : List FastaRecord) (i : Nat) (st : GQState) (p : Path),
    lookupFile (gqResultFiles
        (get_queries_records hashFn dups qf recs i st)) p =
        lookupFile st.files p ∨
      lookupFile st.files p = none
  | [], _, _, _ => Or.inl rfl
  | rec :: rest, i, st, p => by
    have hcomp : ∀ st1 : GQState, st1.files = st.files →
        (lookupFile (gqResultFiles (get_queries_records hashFn dups qf rest
            (i + 1) (gq_emit qf rec i (sanitize_path rec.id) (hashFn rec.seq)
              st1))) p =
          lookupFile st.files p ∨ lookupFile st.files p = none) := by
      intro st1 hfiles
      have hrec := gq_records_changes hashFn dups qf rest (i + 1)
        (gq_emit qf rec i (sanitize_path rec.id) (hashFn rec.seq) st1) p
      have hemit := gq_emit_changes qf rec i (sanitize_path rec.id)
        (hashFn rec.seq) st1 p
      rw [hfiles] at hemit
      rcases hrec with hrec | hrec
      · rcases hemit with hemit | hemit
        · exact Or.inl (hrec.trans hemit)
        · exact Or.inr hemit
      · rcases hemit with hemit | hemit
        · exact Or.inr (hemit ▸ hrec)
        · exact Or.inr hemit
    simp only [get_queries_records]
    rcases hh : assocLookup st.hashes (hashFn rec.seq) with _ | owner
    · dsimp only
      rcases hseen : assocLookup st.seen (sanitize_path rec.id) with _ | prev
      · dsimp only
        exact hcomp _ rfl
      · dsimp only
        by_cases hdups : dups = true
        · rw [if_pos hdups]
          exact hcomp _ rfl
        · rw [if_neg hdups]
          by_cases hqp : qf.path = prev.path
          · rw [if_pos hqp]
            exact Or.inl rfl
          · rw [if_neg hqp]
            exact Or.inl rfl
    · dsimp only
      by_cases howner : owner = sanitize_path rec.id
      · rw [if_pos howner]
        exact gq_records_changes hashFn dups qf rest i st p
      · rw [if_neg howner]
        by_cases hpath : qf.path =
            ((assocLookup st.seen owner).getD ⟨"", 0, ""⟩).path
        · rw [if_pos hpath]
          exact Or.inl rfl
        · rw [if_neg hpath]
          exact Or.inl rfl

theorem gq_records_frame (hashFn : String → String) (dups : Bool)
    (qf : QueryFile) :
    ∀ (recs : List FastaRecord) (i : Nat) (st : GQState) (p : Path),
    (∀ x, p ≠ ["queries", x]) →
    lookupFile (gqResultFiles
        (get_queries_records hashFn dups qf recs i st)) p =
      lookupFile st.files p
  | [], _, _, _, _ => rfl
  | rec :: rest, i, st, p, hp => by
    have hcomp : ∀ st1 : GQState, st1.files = st.files →
        lookupFile (gqResultFiles (get_queries_records hashFn dups qf rest
            (i + 1) (gq_emit qf rec i (sanitize_path rec.id) (hashFn rec.seq)
              st1))) p =
          lookupFile st.files p := by
      intro st1 hfiles
      rw [gq_records_frame hashFn dups qf rest (i + 1) _ p hp,
        gq_emit_frame _ _ _ _ _ _ _ (hp _), hfiles]
    simp only [get_queries_records]
    rcases hh : assocLookup st.hashes (hashFn rec.seq) with _ | owner
    · dsimp only
      rcases hseen : assocLookup st.seen (sanitize_path rec.id) with _ | prev
      · dsimp only
        exact hcomp _ rfl
      · dsimp only
        by_cases hdups : dups = true
        · rw [if_pos hdups]
          exact hcomp _ rfl
        · rw [if_neg hdups]
          by_cases hqp : qf.path = prev.path
          · rw [if_pos hqp]
            rfl
          · rw [if_neg hqp]
            rfl
    · dsimp only
      by_cases howner : owner = sanitize_path rec.id
      · rw [if_pos howner]
        exact gq_records_frame hashFn dups qf rest i st p hp
      · rw [if_neg howner]
        by_cases hpath : qf.path =
            ((assocLookup st.seen owner).getD ⟨"", 0, ""⟩).path
        · rw [if_pos hpath]
          rfl
        · rw [if_neg hpath]
          rfl

/-- A loop result with the filesystem component erased: `get_queries`'
control flow and produced data depend only on these fields. -/
def gqErase (r : Except (GQError × GQState) GQState) :
    Except (GQError × List (String × SeenEntry) × List (String × String) ×
        List Path)
      (List (String × SeenEntry) × List (String × String) × List Path) :=
  match r with
  | .error (e, st) => .error (e, st.seen, st.hashes, st.new_queries)
  | .ok st => .ok (st.seen, st.hashes, st.new_queries)

theorem gq_records_rel (hashFn : String → String) (dups : Bool)
    (qf : QueryFile) :
    ∀ (recs : List FastaRecord) (i : Nat) (se : List (String × SeenEntry))
      (ha : List (String × String)) (nq : List Path) (f f' : FileMap),
    gqErase (get_queries_records hashFn dups qf recs i ⟨se, ha, nq, f⟩) =
      gqErase (get_queries_records hashFn dups qf recs i ⟨se, ha, nq, f'⟩)
  | [], _, _, _, _, _, _ => rfl
  | rec :: rest, i, se, ha, nq, f, f' => by
    simp only [get_queries_records]
    rcases hh : assocLookup ha (hashFn rec.seq) with _ | owner
    · dsimp only
      rcases hseen : assocLookup se (sanitize_path rec.id) with _ | prev
      · dsimp only
        exact gq_records_rel hashFn dups qf rest (i + 1) _ _ _ _ _
      · dsimp only
        by_cases hdups : dups = true
        · rw [if_pos hdups, if_pos hdups]
          exact gq_records_rel hashFn dups qf rest (i + 1) _ _ _ _ _
        · rw [if_neg hdups, if_neg hdups]
          by_cases hqp : qf.path = prev.path
          · rw [if_pos hqp, if_pos hqp]
            rfl
          · rw [if_neg hqp, if_neg hqp]
            rfl
    · dsimp only
      by_cases howner : owner = sanitize_path rec.id
      · rw [if_pos howner, if_pos howner]
        exact gq_records_rel hashFn dups qf rest i _ _ _ _ _
      · rw [if_neg howner, if_neg howner]
        by_cases hpath : qf.path =
            ((assocLookup se owner).getD ⟨"", 0, ""⟩).path
        · rw [if_pos hpath, if_pos hpath]
          rfl
        · rw [if_neg hpath, if_neg hpath]
          rfl

theorem gq_files_rel (hashFn : String → String) (dups : Bool) :
    ∀ (qfs : List QueryFile) (se : List (String × SeenEntry))
      (ha : List (String × String)) (nq : List Path) (f f' : FileMap),
    gqErase (get_queries_files hashFn dups qfs ⟨se, ha, nq, f⟩) =
      gqErase (get_queries_files hashFn dups qfs ⟨se, ha, nq, f'⟩)
  | [], _, _, _, _, _ => rfl
  | qf :: rest, se, ha, nq, f, f' => by
    simp only [get_queries_files]
    have hrel := gq_records_rel hashFn dups qf qf.records 1 se ha nq f f'
    rcases hr : get_queries_records hashFn dups qf qf.records 1
        ⟨se, ha, nq, f⟩ with e | st
    · rw [hr] at hrel
      rcases hr' : get_queries_records hashFn dups qf qf.records 1
          ⟨se, ha, nq, f'⟩ with e' | st'
      · rw [hr'] at hrel
        rcases e with ⟨e, stE⟩
        rcases e' with ⟨e', stE'⟩
        simp only [gqErase, Except.error.injEq, Prod.mk.injEq] at hrel
        dsimp only
        simp only [gqErase, Except.error.injEq, Prod.mk.injEq]
        exact hrel
      · rw [hr'] at hrel
        rcases e with ⟨e, stE⟩
        simp only [gqErase] at hrel
        cases hrel
    · rw [hr] at hrel
      rcases hr' : get_queries_records hashFn dups qf qf.records 1
          ⟨se, ha, nq, f'⟩ with e' | st'
      · rw [hr'] at hrel
        rcases e' with ⟨e', stE'⟩
        simp only [gqErase] at hrel
        cases hrel
      · rw [hr'] at hrel
        simp only [gqErase, Except.ok.injEq, Prod.mk.injEq] at hrel
        obtain ⟨hse, hha, hnq⟩ := hrel
        dsimp only
        have hmain := gq_files_rel hashFn dups rest st'.seen st'.hashes
          st'.new_queries
          (writeFile st.files [".autoMLSA", "backups", qf.path]
            (renderQueryFile qf.records))
          (writeFile st'.files [".autoMLSA", "backups", qf.path]
            (renderQueryFile qf.records))
        rw [hse, hha, hnq]
        exact hmain

theorem gq_files_frame (hashFn : String → String) (dups : Bool) :
    ∀ (qfs : List QueryFile) (st : GQState) (p : Path),
    (∀ x, p ≠ ["queries", x]) →
    (∀ qf ∈ qfs, p ≠ [".autoMLSA", "backups", qf.path]) →
    lookupFile (gqResultFiles (get_queries_files hashFn dups qfs st)) p =
      lookupFile st.files p
  | [], _, _, _, _ => rfl
  | qf :: rest, st, p, hp1, hp2 => by
    simp only [get_queries_files]
    rcases hr : get_queries_records hashFn dups qf qf.records 1 st
      with e | st1
    · have := gq_records_frame hashFn dups qf qf.records 1 st p hp1
      rw [hr] at this
      exact this
    · dsimp only
      rw [gq_files_frame hashFn dups rest _ p hp1
        (fun q hq => hp2 q (by simp [hq]))]
      show lookupFile (writeFile st1.files _ _) p = _
      rw [lookupFile_writeFile_ne _ _ _ _ (hp2 qf (by simp))]
      have := gq_records_frame hashFn dups qf qf.records 1 st p hp1
      rw [hr] at this
      exact this

theorem gq_files_char (hashFn : String → String) (dups : Bool) :
    ∀ (qfs : List QueryFile) (st : GQState) (p : Path),
    lookupFile (gqResultFiles (get_queries_files hashFn dups qfs st)) p =
        lookupFile st.files p ∨
      lookupFile st.files p = none ∨
      ∃ qf ∈ qfs, p = [".autoMLSA", "backups", qf.path] ∧
        lookupFile (gqResultFiles (get_queries_files hashFn dups qfs st)) p =
          some (renderQueryFile qf.records)
  | [], _, _ => Or.inl rfl
  | qf :: rest, st, p => by
    simp only [get_queries_files]
    rcases hr : get_queries_records hashFn dups qf qf.records 1 st
      with e | st1
    · have := gq_records_changes hashFn dups qf qf.records 1 st p
      rw [hr] at this
      rcases this with h | h
      · exact Or.inl h
      · exact Or.inr (Or.inl h)
    · dsimp only
      have hrec := gq_records_changes hashFn dups qf qf.records 1 st p
      rw [hr] at hrec
      simp only [gqResultFiles] at hrec
      by_cases hbk : p = [".autoMLSA", "backups", qf.path]
      · have hmain := gq_files_char hashFn dups rest
          { st1 with
            files := writeFile st1.files [".autoMLSA", "backups", qf.path]
                       (renderQueryFile qf.records) } p
        rcases hmain with h | h | h
        · refine Or.inr (Or.inr ⟨qf, by simp, hbk, ?_⟩)
          rw [h]
          show lookupFile (writeFile st1.files _ _) p = _
          rw [hbk, lookupFile_writeFile_self]
        · refine Or.inr (Or.inr ?_)
          exfalso
          show False
          rw [show lookupFile ({ st1 with
              files := writeFile st1.files [".autoMLSA", "backups", qf.path]
                         (renderQueryFile qf.records) } : GQState).files p =
              some (renderQueryFile qf.records) from by
            rw [hbk]
            exact lookupFile_writeFile_self _ _ _] at h
          cases h
        · obtain ⟨qf', hqf', hpq', hval⟩ := h
          exact Or.inr (Or.inr ⟨qf', by simp [hqf'], hpq', hval⟩)
      · have hmain := gq_files_char hashFn dups rest
          { st1 with
            files := writeFile st1.files [".autoMLSA", "backups", qf.path]
                       (renderQueryFile qf.records) } p
        have hw : lookupFile ({ st1 with
            files := writeFile st1.files [".autoMLSA", "backups", qf.path]
                       (renderQueryFile qf.records) } : GQState).files p =
            lookupFile st1.files p :=
          lookupFile_writeFile_ne _ _ _ _ hbk
        rcases hmain with h | h | h
        · rw [hw] at h
          rcases hrec with h2 | h2
          · exact Or.inl (h.trans h2)
          · exact Or.inr (Or.inl h2)
        · rw [hw] at h
          rcases hrec with h2 | h2
          · exact Or.inr (Or.inl (h2.symm.trans h))
          · exact Or.inr (Or.inl h2)
        · obtain ⟨qf', hqf', hpq', hval⟩ := h
          exact Or.inr (Or.inr ⟨qf', by simp [hqf'], hpq', hval⟩)

theorem gq_files_backup_value (hashFn : String → String) (dups : Bool) :
    ∀ (qfs : List QueryFile) (st : GQState) (st2 : GQState)
      (qf : QueryFile),
    (qfs.map (fun q => q.path)).Nodup → qf ∈ qfs →
    get_queries_files hashFn dups qfs st = .ok st2 →
    lookupFile st2.files [".autoMLSA", "backups", qf.path] =
      some (renderQueryFile qf.records)
  | [], _, _, _, _, hmem, _ => absurd hmem (List.not_mem_nil _)
  | qf0 :: rest, st, st2, qf, hnod, hmem, h => by
    simp only [get_queries_files] at h
    rcases hr : get_queries_records hashFn dups qf0 qf0.records 1 st
      with e | st1
    · rw [hr] at h
      cases h
    · rw [hr] at h
      dsimp only at h
      rcases List.mem_cons.mp hmem with rfl | hmem'
      · have hne : ∀ q ∈ rest,
            ([".autoMLSA", "backups", qf.path] : Path) ≠
              [".autoMLSA", "backups", q.path] := by
          intro q hq hc
          have hpq : qf.path = q.path := by
            injection hc with _ hc2
            injection hc2 with _ hc3
            injection hc3
          have : qf.path ∈ rest.map (fun q => q.path) :=
            List.mem_map.mpr ⟨q, hq, hpq.symm⟩
          rw [List.map_cons] at hnod
          exact (List.nodup_cons.mp hnod).1 this
        have hframe := gq_files_frame hashFn dups rest
          { st1 with
            files := writeFile st1.files [".autoMLSA", "backups", qf.path]
                       (renderQueryFile qf.records) }
          [".autoMLSA", "backups", qf.path] (fun x => by simp) hne
        rw [h] at hframe
        simp only [gqResultFiles] at hframe
        rw [hframe]
        show lookupFile (writeFile st1.files _ _) _ = _
        rw [lookupFile_writeFile_self]
      · rw [List.map_cons] at hnod
        exact gq_files_backup_value hashFn dups rest _ st2 qf
          (List.nodup_cons.mp hnod).2 hmem' h

theorem get_queries_rel (hashFn : String → String) (dups : Bool)
    (queries : List QueryFile) (s : RunState) (nq : List Path) (uq : Bool)
    (s1 : RunState) (h : get_queries hashFn dups queries s = .ok nq uq s1)
    (s' : RunState) :
    ∃ s1', get_queries hashFn dups queries s' =
      .ok nq (pySetNe (s'.expectedQueries.getD []) nq) s1' := by
  unfold get_queries at h ⊢
  rcases hf : get_queries_files hashFn dups queries ⟨[], [], [], s.files⟩
    with e | st
  · rw [hf] at h
    rcases e with ⟨e, stE⟩
    cases h
  · rw [hf] at h
    cases h
    have hrel := gq_files_rel hashFn dups queries [] [] [] s.files s'.files
    rw [hf] at hrel
    rcases hf' : get_queries_files hashFn dups queries ⟨[], [], [], s'.files⟩
      with e' | st'
    · rw [hf'] at hrel
      rcases e' with ⟨e', stE'⟩
      simp only [gqErase] at hrel
      cases hrel
    · rw [hf'] at hrel
      simp only [gqErase, Except.ok.injEq, Prod.mk.injEq] at hrel
      obtain ⟨_, _, hnq⟩ := hrel
      rw [hnq]
      exact ⟨_, rfl⟩

theorem get_queries_ok_frame (hashFn : String → String) (dups : Bool)
    (queries : List QueryFile) (s : RunState) (nq : List Path) (uq : Bool)
    (s1 : RunState) (h : get_queries hashFn dups queries s = .ok nq uq s1)
    (p : Path) (hp1 : ∀ x, p ≠ ["queries", x])
    (hp2 : ∀ qf ∈ queries, p ≠ [".autoMLSA", "backups", qf.path]) :
    lookupFile s1.files p = lookupFile s.files p := by
  unfold get_queries at h
  rcases hf : get_queries_files hashFn dups queries ⟨[], [], [], s.files⟩
    with e | st
  · rw [hf] at h
    rcases e with ⟨e, stE⟩
    cases h
  · rw [hf] at h
    cases h
    have := gq_files_frame hashFn dups queries ⟨[], [], [], s.files⟩ p hp1 hp2
    rw [hf] at this
    exact this

theorem get_queries_ok_char (hashFn : String → String) (dups : Bool)
    (queries : List QueryFile) (s : RunState) (nq : List Path) (uq : Bool)
    (s1 : RunState) (h : get_queries hashFn dups queries s = .ok nq uq s1)
    (p : Path) :
    lookupFile s1.files p = lookupFile s.files p ∨
      lookupFile s.files p = none ∨
      ∃ qf ∈ queries, p = [".autoMLSA", "backups", qf.path] ∧
        lookupFile s1.files p = some (renderQueryFile qf.records) := by
  unfold get_queries at h
  rcases hf : get_queries_files hashFn dups queries ⟨[], [], [], s.files⟩
    with e | st
  · rw [hf] at h
    rcases e with ⟨e, stE⟩
    cases h
  · rw [hf] at h
    cases h
    have := gq_files_char hashFn dups queries ⟨[], [], [], s.files⟩ p
    rw [hf] at this
    exact this

theorem get_queries_ok_backup (hashFn : String → String) (dups : Bool)
    (queries : List QueryFile) (s : RunState) (nq : List Path) (uq : Bool)
    (s1 : RunState) (h : get_queries hashFn dups queries s = .ok nq uq s1)
    (qf : QueryFile) (hqf : qf ∈ queries)
    (hnod : (queries.map (fun q => q.path)).Nodup) :
    lookupFile s1.files [".autoMLSA", "backups", qf.path] =
      some (renderQueryFile qf.records) := by
  unfold get_queries at h
  rcases hf : get_queries_files hashFn dups queries ⟨[], [], [], s.files⟩
    with e | st
  · rw [hf] at h
    rcases e with ⟨e, stE⟩
    cases h
  · rw [hf] at h
    cases h
    exact gq_files_backup_value hashFn dups queries _ st qf hnod hqf hf

theorem runOnceIntended_ok_step (hashFn prep : String → String)
    (summarize : String → List String × Nat) (extOut : Path → String)
    (inp : PipelineInput) (s : RunState) (nq : List Path) (uq : Bool)
    (sQ : RunState)
    (hq : get_queries hashFn inp.dups inp.queries
        (convert_fasta inp.fastas
          (get_labels s.labelsStore (inp.fastas.map (fun g => g.base)))
          { s with labelsStore := some (get_labels s.labelsStore
              (inp.fastas.map (fun g => g.base))) }).2.2 = .ok nq uq sQ) :
    runOnceIntended hashFn prep summarize extOut inp s =
      runAfterQueriesIntended prep summarize extOut inp
        (get_labels s.labelsStore (inp.fastas.map (fun g => g.base)))
        (convert_fasta inp.fastas
          (get_labels s.labelsStore (inp.fastas.map (fun g => g.base)))
          { s with labelsStore := some (get_labels s.labelsStore
              (inp.fastas.map (fun g => g.base))) }).1
        (convert_fasta inp.fastas
          (get_labels s.labelsStore (inp.fastas.map (fun g => g.base)))
          { s with labelsStore := some (get_labels s.labelsStore
              (inp.fastas.map (fun g => g.base))) }).2.1
        nq uq sQ := by
  unfold runOnceIntended
  dsimp only
  rw [hq]

theorem runAfterQueriesIntended_ok_step (prep : String → String)
    (summarize : String → List String × Nat) (extOut : Path → String)
    (inp : PipelineInput) (labels : List String) (nf : List Path)
    (ug : Bool) (nq : List Path) (uq : Bool) (s1 : RunState)
    (cm : List BlastCmd) (hcm : (generate_blast_list nq nf s1.files).1 = cm)
    (res : String) (f2 : FileMap)
    (hread : read_blast_results prep (generate_blast_list nq nf s1.files).2
        (dispatch extOut cm s1.files) = .ok (res, f2))
    (uf : Bool) (s4 : RunState)
    (htail : print_blast_summary_tail inp.runid (summarize res).1
        (summarize res).2 inp.missing_check
        { s1 with files := f2 } = some (uf, s4)) :
    runAfterQueriesIntended prep summarize extOut inp labels nf ug nq uq s1 =
      .ok ⟨labels, nf, ug, nq, uq, cm,
        (generate_blast_list nq nf s1.files).2, (summarize res).1, uf⟩ s4 := by
  unfold runAfterQueriesIntended
  dsimp only
  rw [hcm, hread]
  dsimp only
  rw [htail]

theorem generate_blast_list_snd (queries targets : List Path)
    (files : FileMap) :
    (generate_blast_list queries targets files).2 =
      targets.flatMap (fun t => queries.map (fun q => blastOutPath q t)) := by
  unfold generate_blast_list
  rw [gbl_snd]
  rfl

theorem tail_no_change (runid : String) (keeps : List String) (gcount : Nat)
    (mc : Bool) (s : RunState)
    (hstop : (keeps.length < gcount && !mc) = false)
    (hprev : s.expectedFilt = some keeps) :
    print_blast_summary_tail runid keeps gcount mc s =
      some (false,
        { s with
          expectedFilt := some keeps,
          files := checkpoint_tracker "print_blast_summary" s.files }) := by
  unfold print_blast_summary_tail
  rw [if_neg (by simp [hstop]), hprev]
  simp only [Option.getD_some, pySetNe_self, Bool.false_eq_true, if_false]

set_option maxHeartbeats 1000000

/-- Second-run idempotence of the intended composition: rerunning the
engine (with the filter call repaired to its declared signature) a second
time with byte-identical inputs from the state left by a completed first
run dispatches zero new external search commands (every `(target, query)`
pair is skipped by `generate_blast_list` because its non-empty output file
already exists) and leaves every persisted expected-set — `labels.json`,
`expected_fastas.json`, `expected_queries.json`, `expected_filt.json` —
equal to its value after the first run; no file written by the first run
changes content.  Side conditions: the external search leaves non-empty
output in every `-out` file (an empty output would be re-dispatched by the
`getsize == 0` check), and the query input files have pairwise distinct
names. -/
theorem second_run_no_new_work_intended (hashFn prep : String → String)
    (summarize : String → List String × Nat) (extOut : Path → String)
    (inp : PipelineInput) (out1 : RunOutput) (s1 : RunState)
    (h1 : runOnceIntended hashFn prep summarize extOut inp freshState =
      .ok out1 s1)
    (hext : ∀ p, extOut p ≠ "")
    (hnod : (inp.queries.map (fun q => q.path)).Nodup) :
    ∃ out2 s2, runOnceIntended hashFn prep summarize extOut inp s1 =
      .ok out2 s2 ∧
      out2.dispatched = [] ∧
      s2.labelsStore = s1.labelsStore ∧
      s2.expectedFastas = s1.expectedFastas ∧
      s2.expectedQueries = s1.expectedQueries ∧
      s2.expectedFilt = s1.expectedFilt ∧
      (∀ p c, lookupFile s1.files p = some c → lookupFile s2.files p = some c)
    := by
  have hL : get_labels freshState.labelsStore
      (inp.fastas.map (fun g => g.base)) =
      inp.fastas.map (fun g => g.base) := rfl
  unfold runOnceIntended at h1
  dsimp only at h1
  split at h1
  next e sE heq1 => cases h1
  next nq1 uq1 sQ1 heq1 =>
    unfold runAfterQueriesIntended at h1
    dsimp only at h1
    split at h1
    next p0 heqRB => cases h1
    next rb heqRB =>
      split at h1
      next htail1 => cases h1
      next us4 htail1 =>
        cases h1
        rw [hL] at heq1 heqRB
        obtain ⟨uf1, s1⟩ := us4
        set bases := inp.fastas.map (fun g => g.base) with hbases
        set sA : RunState :=
          { files := freshState.files, labelsStore := some bases,
            renameStore := freshState.renameStore,
            expectedFastas := freshState.expectedFastas,
            expectedQueries := freshState.expectedQueries,
            expectedFilt := freshState.expectedFilt } with hsA
        set CF := convert_fasta inp.fastas bases sA with hCF
        set GB := generate_blast_list nq1 CF.1 sQ1.files with hGB
        set DP := dispatch extOut GB.1 sQ1.files with hDP
        set SM := summarize rb.1 with hSM
        -- specs of run1 stages
        have hCFst := convert_fasta_state inp.fastas bases sA
        rw [← hCF] at hCFst
        have hQspec := get_queries_ok_spec hashFn inp.dups inp.queries
          CF.2.2 nq1 uq1 sQ1 heq1
        have htspec := tail_spec inp.runid SM.1 SM.2 inp.missing_check
          _ uf1 s1 htail1
        have hblast_none : ∀ x : String,
            lookupFile sQ1.files ["blast", x] = none := by
          intro x
          rw [get_queries_ok_frame hashFn inp.dups inp.queries CF.2.2 nq1 uq1
            sQ1 heq1 ["blast", x] (fun y => by simp) (fun qf _ => by simp)]
          have h2 := convert_fasta_frame inp.fastas bases sA ["blast", x]
            (fun b => by simp)
          rw [← hCF] at h2
          rw [h2]
          rfl
        have hcm1 : GB.1 = CF.1.flatMap
            (fun t => nq1.map
              (fun q => (⟨t, q, blastOutPath q t⟩ : BlastCmd))) := by
          rw [hGB]
          exact gbl_cmds_all_absent nq1 CF.1 sQ1.files
            (fun t ht q hq => hblast_none _)
        have hout1 : GB.2 = CF.1.flatMap
            (fun t => nq1.map (fun q => blastOutPath q t)) := by
          rw [hGB]
          exact generate_blast_list_snd nq1 CF.1 sQ1.files
        have hmapout : GB.1.map (fun c => c.out) = GB.2 := by
          rw [hcm1, hout1]
          have hgen : ∀ ts : List Path,
              (ts.flatMap (fun t => nq1.map
                (fun q => (⟨t, q, blastOutPath q t⟩ : BlastCmd)))).map
                  (fun c => c.out) =
                ts.flatMap (fun t => nq1.map (fun q => blastOutPath q t)) := by
            intro ts
            induction ts with
            | nil => rfl
            | cons t ts ih =>
              simp only [List.flatMap_cons, List.map_append, List.map_map, ih]
              rfl
          exact hgen CF.1
        have hshape : ∀ p ∈ GB.2, ∃ x, p = ["blast", x] := by
          intro p hp
          rw [hout1] at hp
          obtain ⟨t, ht, hp2⟩ := List.mem_flatMap.mp hp
          obtain ⟨q, hq, rfl⟩ := List.mem_map.mp hp2
          exact ⟨_, rfl⟩
        have hdisp1 : ∀ p ∈ GB.2, lookupFile DP p = some (extOut p) := by
          intro p hp
          rw [hDP]
          exact dispatch_mem extOut GB.1 sQ1.files p (by rw [hmapout]; exact hp)
        have hcache_sQ1 : lookupFile sQ1.files
            [".autoMLSA", "blast_results.tsv"] = none := by
          rw [get_queries_ok_frame hashFn inp.dups inp.queries CF.2.2 nq1 uq1
            sQ1 heq1 _ (fun y => by simp) (fun qf _ => by simp)]
          have h2 := convert_fasta_frame inp.fastas bases sA
            [".autoMLSA", "blast_results.tsv"] (fun b => by simp)
          rw [← hCF] at h2
          rw [h2]
          rfl
        have hcache_dp : lookupFile DP
            [".autoMLSA", "blast_results.tsv"] = none := by
          have hne : ∀ cmd ∈ GB.1,
              ([".autoMLSA", "blast_results.tsv"] : Path) ≠ cmd.out := by
            intro cmd hc
            rw [hcm1] at hc
            obtain ⟨t, ht, hc2⟩ := List.mem_flatMap.mp hc
            obtain ⟨q, hq, rfl⟩ := List.mem_map.mp hc2
            simp [blastOutPath]
          rw [hDP, dispatch_frame extOut GB.1 sQ1.files _ hne]
          exact hcache_sQ1
        obtain ⟨RAW1, hRAW1⟩ := readAppend_exists GB.2 DP
          (fun p hp => ⟨extOut p, hdisp1 p hp⟩)
        have hfresh1 := read_blast_results_fresh prep GB.2 DP RAW1
          hcache_dp hRAW1
        rw [heqRB] at hfresh1
        simp only [Except.ok.injEq] at hfresh1
        have hres1 : rb.1 = prep RAW1 := by rw [hfresh1]
        have hrb2 : rb.2 = checkpoint_tracker "read_blast_results"
            (writeFile DP [".autoMLSA", "blast_results.tsv"] rb.1) := by
          rw [hfresh1]
        obtain ⟨hupd1, hfilt1, hlab1, hren1, hef1, heqQ1, hstop1, hfr1, hch1⟩ :=
          htspec
        have hs1labels : s1.labelsStore = some bases := by
          rw [hlab1]
          show sQ1.labelsStore = some bases
          rw [hQspec.2.2.1, hCFst.2.2.1]
        have hs1eF : s1.expectedFastas = some CF.1 := by
          rw [hef1]
          show sQ1.expectedFastas = some CF.1
          rw [hQspec.2.2.2.2.1, hCFst.1]
        have hs1eQ : s1.expectedQueries = some nq1 := by
          rw [heqQ1]
          show sQ1.expectedQueries = some nq1
          exact hQspec.2.1
        have hs1blast : ∀ p ∈ GB.2,
            lookupFile s1.files p = some (extOut p) := by
          intro p hp
          obtain ⟨x, rfl⟩ := hshape p hp
          rw [hfr1 ["blast", x] (by simp) (by simp [genomeDelete]) rfl]
          show lookupFile rb.2 ["blast", x] = some (extOut ["blast", x])
          rw [hrb2, checkpoint_tracker_frame _ _ _ (by simp),
            lookupFile_writeFile_ne _ _ _ _ (by simp)]
          exact hdisp1 _ hp
        have hS3cache : lookupFile rb.2 [".autoMLSA", "blast_results.tsv"] =
            some rb.1 := by
          rw [hrb2, checkpoint_tracker_frame _ _ _ (by simp),
            lookupFile_writeFile_self]
        have hs1cache_or :
            lookupFile s1.files [".autoMLSA", "blast_results.tsv"] =
                some rb.1 ∨
              lookupFile s1.files [".autoMLSA", "blast_results.tsv"] =
                none := by
          rcases hch1 [".autoMLSA", "blast_results.tsv"] (by simp)
            with hpr | hno
          · left
            rw [hpr]
            exact hS3cache
          · right
            exact hno
        have hs1backup : ∀ qf ∈ inp.queries,
            lookupFile s1.files [".autoMLSA", "backups", qf.path] =
              some (renderQueryFile qf.records) := by
          intro qf hqf
          rw [hfr1 [".autoMLSA", "backups", qf.path] (by simp)
            (by simp [genomeDelete]) rfl]
          show lookupFile rb.2 [".autoMLSA", "backups", qf.path] = _
          rw [hrb2, checkpoint_tracker_frame _ _ _ (by simp),
            lookupFile_writeFile_ne _ _ _ _ (by simp)]
          have hne : ∀ cmd ∈ GB.1,
              ([".autoMLSA", "backups", qf.path] : Path) ≠ cmd.out := by
            intro cmd hc
            rw [hcm1] at hc
            obtain ⟨t, ht, hc2⟩ := List.mem_flatMap.mp hc
            obtain ⟨q, hq2, rfl⟩ := List.mem_map.mp hc2
            simp [blastOutPath]
          rw [hDP, dispatch_frame extOut GB.1 sQ1.files _ hne]
          exact get_queries_ok_backup hashFn inp.dups inp.queries CF.2.2 nq1
            uq1 sQ1 heq1 qf hqf hnod
        have hlab2 : get_labels s1.labelsStore
            (inp.fastas.map (fun g => g.base)) = bases := by
          rw [hs1labels]
          show addBases bases (inp.fastas.map (fun g => g.base)) = bases
          rw [← hbases]
          exact addBases_absorb bases bases (fun b hb => hb)
        obtain ⟨sQ2, hq2⟩ := get_queries_rel hashFn inp.dups inp.queries
          CF.2.2 nq1 uq1 sQ1 heq1
          (convert_fasta inp.fastas
            (get_labels s1.labelsStore (inp.fastas.map (fun g => g.base)))
            { s1 with labelsStore := some (get_labels s1.labelsStore
                (inp.fastas.map (fun g => g.base))) }).2.2
        have hstep2 := runOnceIntended_ok_step hashFn prep summarize extOut
          inp s1
          nq1 _ sQ2 hq2
        rw [hlab2] at hq2 hstep2
        set CF2 := convert_fasta inp.fastas bases
          { s1 with labelsStore := some bases } with hCF2
        have hCF2st := convert_fasta_state inp.fastas bases
          { s1 with labelsStore := some bases }
        rw [← hCF2] at hCF2st
        have hCF2fst : CF2.1 = CF.1 := by
          rw [hCF2, hCF, convert_fasta_new_fastas, convert_fasta_new_fastas]
        have hQspec2 := get_queries_ok_spec hashFn inp.dups inp.queries
          CF2.2.2 nq1 _ sQ2 hq2
        have hpresCF2 : ∀ p c, lookupFile s1.files p = some c →
            lookupFile CF2.2.2.files p = some c := by
          intro p c hc
          rw [hCF2]
          exact convert_fasta_preserve inp.fastas bases _ p c hc
        have hpres2 : ∀ p c, lookupFile s1.files p = some c →
            lookupFile sQ2.files p = some c := by
          intro p c hc
          rcases get_queries_ok_char hashFn inp.dups inp.queries CF2.2.2 nq1
            _ sQ2 hq2 p with hpr | hno | ⟨qf, hqf, hbp, hval⟩
          · rw [hpr]
            exact hpresCF2 p c hc
          · rw [hpresCF2 p c hc] at hno
            cases hno
          · subst hbp
            rw [hval]
            have h2 := hs1backup qf hqf
            rw [hc] at h2
            rw [Option.some.injEq] at h2
            rw [h2]
        have hsQ2blast : ∀ p ∈ GB.2,
            lookupFile sQ2.files p = some (extOut p) :=
          fun p hp => hpres2 p _ (hs1blast p hp)
        have hcm2 : (generate_blast_list nq1 CF2.1 sQ2.files).1 = [] := by
          apply gbl_cmds_all_present
          intro t ht q hq
          rw [hCF2fst] at ht
          have hmem : blastOutPath q t ∈ GB.2 := by
            rw [hout1]
            exact List.mem_flatMap.mpr ⟨t, ht, List.mem_map.mpr ⟨q, hq, rfl⟩⟩
          exact ⟨extOut (blastOutPath q t), hsQ2blast _ hmem, hext _⟩
        have hGB2snd : (generate_blast_list nq1 CF2.1 sQ2.files).2 = GB.2 := by
          rw [generate_blast_list_snd, hCF2fst]
          exact hout1.symm
        have hread2 : ∃ F2, read_blast_results prep
            (generate_blast_list nq1 CF2.1 sQ2.files).2 sQ2.files =
              .ok (rb.1, F2) ∧
            ∀ p c, lookupFile sQ2.files p = some c →
              lookupFile F2 p = some c := by
          rcases hs1cache_or with hcache | hcache
          · have hc2 : lookupFile sQ2.files [".autoMLSA", "blast_results.tsv"]
                = some rb.1 := hpres2 _ _ hcache
            refine ⟨checkpoint_tracker "read_blast_results" sQ2.files,
              ?_, ?_⟩
            · exact read_blast_results_cached prep _ sQ2.files rb.1 hc2
            · intro p c hc
              exact checkpoint_tracker_preserve _ _ _ _ hc
          · have hc2 : lookupFile sQ2.files [".autoMLSA", "blast_results.tsv"]
                = none := by
              rw [get_queries_ok_frame hashFn inp.dups inp.queries CF2.2.2
                nq1 _ sQ2 hq2 _ (fun y => by simp) (fun qf _ => by simp)]
              rw [hCF2, convert_fasta_frame inp.fastas bases _ _
                (fun b => by simp)]
              exact hcache
            have hraw : readAppend sQ2.files
                (generate_blast_list nq1 CF2.1 sQ2.files).2 = .ok RAW1 := by
              rw [hGB2snd, readAppend_congr GB.2 sQ2.files DP
                (fun p hp => by rw [hsQ2blast p hp, hdisp1 p hp])]
              exact hRAW1
            have hfresh := read_blast_results_fresh prep
              (generate_blast_list nq1 CF2.1 sQ2.files).2 sQ2.files RAW1
              hc2 hraw
            rw [← hres1] at hfresh
            refine ⟨_, hfresh, ?_⟩
            intro p c hc
            apply checkpoint_tracker_preserve
            by_cases hp : p = [".autoMLSA", "blast_results.tsv"]
            · rw [hp] at hc
              rw [hc2] at hc
              cases hc
            · rw [lookupFile_writeFile_ne _ _ _ _ hp]
              exact hc
        obtain ⟨F2, hread2eq, hF2pres⟩ := hread2
        have hprev2 : sQ2.expectedFilt = some SM.1 := by
          rw [hQspec2.2.2.2.2.2, hCF2st.2.2.2.2]
          show s1.expectedFilt = some SM.1
          exact hfilt1
        have htail2 := tail_no_change inp.runid SM.1 SM.2 inp.missing_check
          { sQ2 with files := F2 } hstop1 hprev2
        have hfinal := runAfterQueriesIntended_ok_step prep summarize extOut
          inp bases
          CF2.1 CF2.2.1 nq1 (pySetNe (CF2.2.2.expectedQueries.getD []) nq1)
          sQ2 [] hcm2 rb.1 F2 hread2eq false _ htail2
        refine ⟨_, _, hstep2.trans hfinal, rfl, ?_, ?_, ?_, ?_, ?_⟩
        · show sQ2.labelsStore = s1.labelsStore
          rw [hQspec2.2.2.1, hCF2st.2.2.1]
          show some bases = s1.labelsStore
          rw [hs1labels]
        · show sQ2.expectedFastas = s1.expectedFastas
          rw [hQspec2.2.2.2.2.1, hCF2st.1, hCF2fst, hs1eF]
        · show sQ2.expectedQueries = s1.expectedQueries
          rw [hQspec2.2.1, hs1eQ]
        · show some SM.1 = s1.expectedFilt
          rw [hfilt1]
        · intro p c hc
          show lookupFile (checkpoint_tracker "print_blast_summary" F2) p =
            some c
          exact checkpoint_tracker_preserve _ _ _ _
            (hF2pres p c (hpres2 p c hc))

/-- Closed instance of the intended-composition second-run theorem: the
empty input run from a fresh state, rerun from its own final state,
redispatches nothing. -/
theorem second_run_no_new_work_intended_witness :
    ∃ out2 s2, runOnceIntended (fun x => x) (fun _ => "x") (fun _ => ([], 0))
        (fun _ => "y") ⟨"run", false, true, [], []⟩
        { files := [([".autoMLSA", "checkpoint", "print_blast_summary"], ""),
            ([".autoMLSA", "checkpoint", "read_blast_results"], ""),
            ([".autoMLSA", "blast_results.tsv"], "x")],
          labelsStore := some [], renameStore := some [],
          expectedFastas := some [], expectedQueries := some [],
          expectedFilt := some [] } = .ok out2 s2 ∧
      out2.dispatched = [] ∧
      s2.labelsStore = some [] ∧
      s2.expectedFastas = some [] ∧
      s2.expectedQueries = some [] ∧
      s2.expectedFilt = some [] ∧
      (∀ p c, lookupFile
        [([".autoMLSA", "checkpoint", "print_blast_summary"], ""),
          ([".autoMLSA", "checkpoint", "read_blast_results"], ""),
          ([".autoMLSA", "blast_results.tsv"], "x")] p = some c →
        lookupFile s2.files p = some c) :=
  second_run_no_new_work_intended (fun x => x) (fun _ => "x")
    (fun _ => ([], 0))
    (fun _ => "y") ⟨"run", false, true, [], []⟩
    ⟨[], [], false, [], false, [], [], [], false⟩
    { files := [([".autoMLSA", "checkpoint", "print_blast_summary"], ""),
        ([".autoMLSA", "checkpoint", "read_blast_results"], ""),
        ([".autoMLSA", "blast_results.tsv"], "x")],
      labelsStore := some [], renameStore := some [],
      expectedFastas := some [], expectedQueries := some [],
      expectedFilt := some [] }
    (by decide) (fun p => by simp) (by decide)

end AutoMLSA
